import Mathlib

set_option allowUnsafeReducibility true in
attribute [semireducible] Rat.mul Rat.inv Rat.add Rat.sub Rat.ofScientific

set_option maxRecDepth 10000
set_option maxHeartbeats 2000000

/-
  Shallow embedding of the prompt-plan normalization pipeline, object pool,
  day-stage state machine, spawn resolver and local fallback generator of the
  universodu repository (src/src/main.js, src/api/generate.js,
  src/src/constants.js, src/src/world.js, src/unnamed/part_002).

  Modelling conventions:
  - JavaScript numbers are modelled as rationals (ℚ); the non-finite numbers
    (NaN, Infinity) are collapsed into a single JVal.nan constructor, which is
    all the embedded code ever distinguishes (every numeric path guards with
    Number.isFinite before using a value).
  - JavaScript strings are Lean Strings; one Char models one code unit.
    String.trim is modelled over the ASCII whitespace set, toLowerCase over
    the ASCII A-Z range, which covers every vocabulary word and every literal
    the embedded functions compare against.
  - Number(string) is modelled for decimal literals (optional sign, digits,
    fraction, exponent, the empty string parsing to 0); all other strings
    parse to NaN (Option.none).
-/

namespace Universodu

/-- JVal models a scalar JavaScript value as seen by the normalizers. -/
inductive JVal : Type where
  | undefined : JVal
  | null : JVal
  | jbool : Bool → JVal
  | num : ℚ → JVal
  | nan : JVal
  | str : String → JVal
deriving DecidableEq

/-- Nullish values are skipped by the JavaScript ?? operator. -/
def JVal.isNullish : JVal → Bool
  | .undefined => true
  | .null => true
  | _ => false

/-- JavaScript falsiness: undefined, null, false, 0, NaN and the empty string. -/
def JVal.falsy : JVal → Bool
  | .undefined => true
  | .null => true
  | .jbool b => !b
  | .num q => q = 0
  | .nan => true
  | .str s => s = ""

/-- Model of the JavaScript nullish-coalescing operator a ?? b. -/
def jjNN (a b : JVal) : JVal := if a.isNullish then b else a

/-- Model of the JavaScript logical-or operator a || b on values. -/
def jjOr (a b : JVal) : JVal := if a.falsy then b else a

/-- ASCII whitespace, the character class stripped by the modelled trim. -/
def jsWs (c : Char) : Bool :=
  c = ' ' || c = '\t' || c = '\n' || c = '\r' || c = '\x0b' || c = '\x0c'

/-- Drop trailing whitespace characters from a character list. -/
def charTrimR : List Char → List Char
  | [] => []
  | c :: cs =>
    if charTrimR cs = [] && jsWs c then [] else c :: charTrimR cs

/-- Model of String.prototype.trim: strip leading and trailing whitespace. -/
def jsTrim (s : String) : String := ⟨charTrimR (s.data.dropWhile jsWs)⟩

/-- Uppercase-to-lowercase pairs for the ASCII range handled by toLowerCase. -/
def lowerPairs : List (Char × Char) :=
  [('A', 'a'), ('B', 'b'), ('C', 'c'), ('D', 'd'), ('E', 'e'), ('F', 'f'),
   ('G', 'g'), ('H', 'h'), ('I', 'i'), ('J', 'j'), ('K', 'k'), ('L', 'l'),
   ('M', 'm'), ('N', 'n'), ('O', 'o'), ('P', 'p'), ('Q', 'q'), ('R', 'r'),
   ('S', 's'), ('T', 't'), ('U', 'u'), ('V', 'v'), ('W', 'w'), ('X', 'x'),
   ('Y', 'y'), ('Z', 'z')]

/-- Association lookup over character pairs. -/
def charLookup : List (Char × Char) → Char → Option Char
  | [], _ => none
  | p :: ps, c => if p.1 = c then some p.2 else charLookup ps c

/-- Lowercase one character (ASCII model of toLowerCase). -/
def jsCharLower (c : Char) : Char := (charLookup lowerPairs c).getD c

/-- Model of String.prototype.toLowerCase. -/
def jsToLower (s : String) : String := ⟨s.data.map jsCharLower⟩

/-- Model of String.prototype.slice(0, n) for a nonnegative bound n. -/
def jsTake (n : ℕ) (s : String) : String := ⟨s.data.take n⟩

/-- Check whether pat occurs as a contiguous run inside l. -/
def charContains (l pat : List Char) : Bool :=
  match l with
  | [] => pat.isEmpty
  | _ :: cs => pat.isPrefixOf l || charContains cs pat

/-- Model of String.prototype.includes. -/
def jsIncludes (s pat : String) : Bool := charContains s.data pat.data

/-- Model of String.prototype.replace(/,/g, "."). -/
def jsCommaToDot (s : String) : String :=
  ⟨s.data.map (fun c => if c = ',' then '.' else c)⟩

/-- Read a run of decimal digits, returning their value, count and the rest. -/
def readDigits : List Char → ℕ → ℕ → ℕ × ℕ × List Char
  | [], acc, n => (acc, n, [])
  | c :: cs, acc, n =>
    if c.isDigit then readDigits cs (acc * 10 + (c.toNat - 48)) (n + 1)
    else (acc, n, c :: cs)

/-- Parse the exponent tail of a decimal literal, if the input is one. -/
def parseExponent : List Char → Option ℤ
  | [] => some 0
  | c :: cs =>
    if c = 'e' || c = 'E' then
      match cs with
      | '+' :: ds =>
        match readDigits ds 0 0 with
        | (v, n, rest) => if n > 0 && rest.isEmpty then some (v : ℤ) else none
      | '-' :: ds =>
        match readDigits ds 0 0 with
        | (v, n, rest) => if n > 0 && rest.isEmpty then some (-(v : ℤ)) else none
      | ds =>
        match readDigits ds 0 0 with
        | (v, n, rest) => if n > 0 && rest.isEmpty then some (v : ℤ) else none
    else none

/-- Parse an unsigned decimal literal with optional fraction and exponent. -/
def parseUnsigned (l : List Char) : Option ℚ :=
  match readDigits l 0 0 with
  | (ip, ipn, rest) =>
    match rest with
    | '.' :: frac =>
      match readDigits frac 0 0 with
      | (fp, fpn, rest2) =>
        if ipn + fpn = 0 then none
        else
          match parseExponent rest2 with
          | some e => some (((ip : ℚ) + (fp : ℚ) / (10 : ℚ) ^ fpn) * (10 : ℚ) ^ e)
          | none => none
    | _ =>
      if ipn = 0 then none
      else
        match parseExponent rest with
        | some e => some ((ip : ℚ) * (10 : ℚ) ^ e)
        | none => none

/-- Model of Number(s) for an already-trimmed string: the empty string is 0,
decimal literals parse to their value, everything else is NaN (none). -/
def jsParseNumber (s : String) : Option ℚ :=
  match s.data with
  | [] => some 0
  | '+' :: rest => parseUnsigned rest
  | '-' :: rest => (parseUnsigned rest).map Neg.neg
  | l => parseUnsigned l

/-- Render a JavaScript number as a string; non-integral rationals use the
Lean rational printer, an approximation that no tag-vocabulary comparison
can distinguish (no allowed tag is number-shaped). -/
def jsNumToString (q : ℚ) : String :=
  if q.den = 1 then toString q.num else toString q

/-- Total model of String(v) for scalar values; toString() on null or
undefined throws in JavaScript, which callers model separately. -/
def jvalToString : JVal → String
  | .undefined => "undefined"
  | .null => "null"
  | .jbool b => if b then "true" else "false"
  | .num q => jsNumToString q
  | .nan => "NaN"
  | .str s => s

/-- Association lookup over string pairs, modelling TABLE[key] object access. -/
def strLookup : List (String × String) → String → Option String
  | [], _ => none
  | p :: ps, s => if p.1 = s then some p.2 else strLookup ps s

/-- Nested numeric attribute object of a candidate entity (entry.attributes). -/
structure CandAttrs : Type where
  floors : JVal := .undefined
  height : JVal := .undefined
  width : JVal := .undefined
  depth : JVal := .undefined
  radius : JVal := .undefined
  length : JVal := .undefined
  thickness : JVal := .undefined

/-- Candidate entity object as the normalizers read it: every field a loose
JavaScript value, absent fields being undefined. -/
structure Candidate : Type where
  type : JVal := .undefined
  entity : JVal := .undefined
  kind : JVal := .undefined
  target : JVal := .undefined
  label : JVal := .undefined
  quantity : JVal := .undefined
  count : JVal := .undefined
  size : JVal := .undefined
  scale : JVal := .undefined
  color : JVal := .undefined
  tint : JVal := .undefined
  material : JVal := .undefined
  hue : JVal := .undefined
  trunkColor : JVal := .undefined
  barkColor : JVal := .undefined
  foliageColor : JVal := .undefined
  leafColor : JVal := .undefined
  secondaryColor : JVal := .undefined
  detail : JVal := .undefined
  floors : JVal := .undefined
  height : JVal := .undefined
  width : JVal := .undefined
  depth : JVal := .undefined
  radius : JVal := .undefined
  length : JVal := .undefined
  spread : JVal := .undefined
  range : JVal := .undefined
  thickness : JVal := .undefined
  attributes : Option CandAttrs := none

/-- Element of a candidate entities array: either a non-object scalar, which
both normalizers skip, or a candidate object. -/
inductive JItem : Type where
  | prim : JVal → JItem
  | obj : Candidate → JItem

/-- Normalized entity descriptor, the output shape of both normalizeEntities
(src/src/main.js) and sanitizeEntities (src/api/generate.js). -/
structure Descriptor : Type where
  type : String
  quantity : ℚ
  size : Option String := none
  scale : Option ℚ := none
  color : Option String := none
  trunkColor : Option String := none
  foliageColor : Option String := none
  detail : Option String := none
  floors : Option ℚ := none
  height : Option ℚ := none
  width : Option ℚ := none
  depth : Option ℚ := none
  radius : Option ℚ := none
  length : Option ℚ := none
  spread : Option ℚ := none
  thickness : Option ℚ := none
deriving DecidableEq

/-- Model of toFiniteNumber(value, fallback) from src/src/main.js: a finite
number is returned as is, a string is parsed after trim and comma-to-dot
replacement, anything else yields the fallback (undefined when absent). -/
def toFiniteNumber (v : JVal) (fb : Option ℚ) : Option ℚ :=
  match v with
  | .num q => some q
  | .str s =>
    match jsParseNumber (jsCommaToDot (jsTrim s)) with
    | some q => some q
    | none => fb
  | _ => fb

/-- Model of clampNumber(value, min, max): Math.max(min, Math.min(max, v)).
The typeof/NaN guard of the source returns min for a non-number; at every
embedded call site the argument is already a finite number. -/
def clampNumber (v lo hi : ℚ) : ℚ := max lo (min hi v)

/-- Model of `r || d` applied to a number-or-null/undefined intermediate:
null, undefined and 0 are falsy and give the default. -/
def jsOrNum (r : Option ℚ) (d : ℚ) : ℚ :=
  match r with
  | none => d
  | some q => if q = 0 then d else q

/-- JavaScript Set.add modelled on an insertion-ordered duplicate-free list. -/
def addTag (acc : List String) (t : String) : List String :=
  if acc.contains t then acc else acc ++ [t]

/-- First matching heuristic wins: scan the ordered branch list and return
the tag of the first branch one of whose keyword fragments occurs in n. -/
def heuristicFind : List (List String × String) → String → Option String
  | [], _ => none
  | (pats, t) :: rest, n =>
    if pats.any (fun p => jsIncludes n p) then some t else heuristicFind rest n

namespace Client

/-- KNOWN_TAGS from src/src/main.js: the closed tag vocabulary. -/
def KNOWN_TAGS : List String :=
  ["cacti", "rocks", "oasis", "ruins", "crystals", "mirage", "fireflies",
   "totems", "creatures", "nomads", "structures", "storm", "flora",
   "portals", "sentinels"]

/-- ENTITY_TYPE_ALIASES from src/src/main.js. -/
def ENTITY_TYPE_ALIASES : List (String × String) :=
  [("structures", "structure"), ("building", "structure"),
   ("buildings", "structure"), ("towers", "tower"), ("tower", "tower"),
   ("trees", "tree"), ("cactus", "cacti"), ("cactuses", "cacti"),
   ("waters", "water"), ("lakes", "water"), ("crystals", "crystal"),
   ("portals", "portal"), ("gateways", "portal"), ("firefly", "fireflies"),
   ("fireflies", "fireflies"), ("totems", "totem"), ("rocks", "rock"),
   ("stones", "rock"), ("dunes", "dune"), ("bridges", "bridge"),
   ("monoliths", "monolith"), ("florae", "flora"), ("plants", "flora"),
   ("creatures", "creature"), ("sentinels", "sentinel"),
   ("guardians", "sentinel"), ("ruins", "ruins"), ("temples", "ruins"),
   ("mirages", "mirage"), ("visions", "mirage"), ("nomads", "nomad"),
   ("caravans", "nomad"), ("storms", "storm")]

/-- Alias resolution ENTITY_TYPE_ALIASES[type] || type; every table value is
a nonempty (truthy) string, so the || is an association-lookup default. -/
def aliasResolve (t : String) : String :=
  (strLookup ENTITY_TYPE_ALIASES t).getD t

/-- Heuristic branches of normalizeTags in src/src/main.js, in source order:
each else-if branch tests its keyword fragments and adds its tag. -/
def TAG_HEURISTICS : List (List String × String) :=
  [(["oasis"], "oasis"),
   (["cact"], "cacti"),
   (["ruin", "templo"], "ruins"),
   (["cristal", "crystal"], "crystals"),
   (["luci", "fuego", "estre"], "fireflies"),
   (["totem", "escultura"], "totems"),
   (["roca", "piedra", "meteor"], "rocks"),
   (["espej", "mirage", "bruma"], "mirage"),
   (["criatura", "ser"], "creatures"),
   (["nomada", "nómada", "caravana"], "nomads"),
   (["estructura", "torre", "ciudad"], "structures"),
   (["tormenta", "viento"], "storm"),
   (["flora", "veget"], "flora"),
   (["portal"], "portals"),
   (["centinela", "guardian"], "sentinels")]

/-- Substring-heuristic chain of normalizeTags in src/src/main.js: the first
matching branch adds its tag, no branch matching adds nothing. -/
def tagHeuristic (n : String) (acc : List String) : List String :=
  match heuristicFind TAG_HEURISTICS n with
  | some t => addTag acc t
  | none => acc

/-- Processing of one token by normalizeTags: skip falsy tokens, lowercase
and trim, accept exact vocabulary members, otherwise try the heuristics. -/
def normalizeTagStep (acc : List String) (v : JVal) : List String :=
  if v.falsy then acc
  else
    let n := jsTrim (jsToLower (jvalToString v))
    if KNOWN_TAGS.contains n then addTag acc n else tagHeuristic n acc

/-- Model of normalizeTags from src/src/main.js; the returned JavaScript Set
is modelled as its insertion-ordered duplicate-free element list. -/
def normalizeTags (l : List JVal) : List String :=
  l.foldl normalizeTagStep []

/-- Resolution of the candidate type field: entity.type ?? entity.entity ??
entity.kind, lowercased and trimmed when a string, otherwise empty. -/
def entityType (e : Candidate) : String :=
  match jjNN e.type (jjNN e.entity e.kind) with
  | .str s => jsTrim (jsToLower s)
  | _ => ""

/-- Quantity normalization of src/src/main.js:
clampNumber(toFiniteNumber(quantity ?? count ?? 1, 1) || 1, 1, 8). -/
def normQuantity (qv cv : JVal) : ℚ :=
  clampNumber (jsOrNum (toFiniteNumber (jjNN qv (jjNN cv (.num 1))) (some 1)) 1) 1 8

/-- Size normalization of src/src/main.js: a non-blank string is stored
trimmed and lowercased, anything else leaves the field omitted. -/
def normSize (v : JVal) : Option String :=
  match v with
  | .str s => if jsTrim s = "" then none else some (jsToLower (jsTrim s))
  | _ => none

/-- Scale normalization of src/src/main.js: a finite number is clamped to
[0.3, 4], anything else leaves the field omitted. -/
def normScale (v : JVal) : Option ℚ :=
  match v with
  | .num q => some (clampNumber q (3 / 10) 4)
  | _ => none

/-- String field normalization of src/src/main.js: a non-blank string is
stored trimmed and capped at the given length (32 for the color fields, 160
for detail), anything else leaves the field omitted. -/
def normCapped (cap : ℕ) (v : JVal) : Option String :=
  match v with
  | .str s => if jsTrim s = "" then none else some (jsTake cap (jsTrim s))
  | _ => none

/-- Normalization of one candidate entity by src/src/main.js: drop non-object
items and items with an empty resolved type; otherwise emit the descriptor.
Numeric dimension fields are passed through toFiniteNumber without clamping,
exactly as the source does. -/
def normEntity (it : JItem) : Option Descriptor :=
  match it with
  | .prim _ => none
  | .obj e =>
    let t := entityType e
    if t = "" then none
    else some {
      type := aliasResolve t
      quantity := normQuantity e.quantity e.count
      size := normSize e.size
      scale := normScale e.scale
      color := normCapped 32 e.color
      trunkColor := normCapped 32 e.trunkColor
      foliageColor := normCapped 32 e.foliageColor
      detail := normCapped 160 e.detail
      floors := toFiniteNumber e.floors none
      height := toFiniteNumber e.height none
      width := toFiniteNumber e.width none
      depth := toFiniteNumber e.depth none
      radius := toFiniteNumber e.radius none
      length := toFiniteNumber e.length none
      spread := toFiniteNumber e.spread none
      thickness := none
    }

/-- Model of normalizeEntities from src/src/main.js. -/
def normalizeEntities (l : List JItem) : List Descriptor :=
  l.filterMap normEntity

/-- Reinjection of a normalized descriptor as a candidate object, for feeding
the normalizer its own output. -/
def descToCandidate (d : Descriptor) : Candidate :=
  { type := .str d.type
    quantity := .num d.quantity
    size := match d.size with | some s => .str s | none => .undefined
    scale := match d.scale with | some q => .num q | none => .undefined
    color := match d.color with | some s => .str s | none => .undefined
    trunkColor := match d.trunkColor with | some s => .str s | none => .undefined
    foliageColor := match d.foliageColor with | some s => .str s | none => .undefined
    detail := match d.detail with | some s => .str s | none => .undefined
    floors := match d.floors with | some q => .num q | none => .undefined
    height := match d.height with | some q => .num q | none => .undefined
    width := match d.width with | some q => .num q | none => .undefined
    depth := match d.depth with | some q => .num q | none => .undefined
    radius := match d.radius with | some q => .num q | none => .undefined
    length := match d.length with | some q => .num q | none => .undefined
    spread := match d.spread with | some q => .num q | none => .undefined
    thickness := match d.thickness with | some q => .num q | none => .undefined }

/-- Second-pass effect of the length caps: renormalizing a normalized
descriptor re-trims the capped string fields and changes nothing else. -/
def retrimCaps (d : Descriptor) : Descriptor :=
  { d with
    color := d.color.map jsTrim
    trunkColor := d.trunkColor.map jsTrim
    foliageColor := d.foliageColor.map jsTrim
    detail := d.detail.map jsTrim }

end Client

namespace Shared

/-- Heuristic branches of the normalizeTags copy in src/src/constants.js; it
differs from the main.js copy only in the nomads branch, which tests
"nomada" twice instead of "nomada"/"nómada". -/
def TAG_HEURISTICS : List (List String × String) :=
  [(["oasis"], "oasis"),
   (["cact"], "cacti"),
   (["ruin", "templo"], "ruins"),
   (["cristal", "crystal"], "crystals"),
   (["luci", "fuego", "estre"], "fireflies"),
   (["totem", "escultura"], "totems"),
   (["roca", "piedra", "meteor"], "rocks"),
   (["espej", "mirage", "bruma"], "mirage"),
   (["criatura", "ser"], "creatures"),
   (["nomada", "nomada", "caravana"], "nomads"),
   (["estructura", "torre", "ciudad"], "structures"),
   (["tormenta", "viento"], "storm"),
   (["flora", "veget"], "flora"),
   (["portal"], "portals"),
   (["centinela", "guardian"], "sentinels")]

/-- Substring-heuristic chain of the constants.js normalizeTags copy. -/
def tagHeuristic (n : String) (acc : List String) : List String :=
  match heuristicFind TAG_HEURISTICS n with
  | some t => addTag acc t
  | none => acc

/-- Per-token processing of the constants.js normalizeTags copy; the
ALLOWED_TAGS set it consults holds the same 15 tags as KNOWN_TAGS. -/
def normalizeTagStep (acc : List String) (v : JVal) : List String :=
  if v.falsy then acc
  else
    let n := jsTrim (jsToLower (jvalToString v))
    if Client.KNOWN_TAGS.contains n then addTag acc n else tagHeuristic n acc

/-- Model of normalizeTags from src/src/constants.js. -/
def normalizeTags (l : List JVal) : List String :=
  l.foldl normalizeTagStep []

/-- ENTITY_TYPES from src/src/constants.js: the extended canonical entity
vocabulary of the shared-constants variant, a strict superset of the
serverless vocabulary (human, bird, fish, deer, wolf, horse, sea and the
detailed water bodies are new). -/
def ENTITY_TYPES : List String :=
  ["structure", "tower", "tree", "oasis", "water", "crystal", "portal",
   "fireflies", "totem", "rock", "dune", "bridge", "monolith", "flora",
   "creature", "sentinel", "cacti", "ruins", "mirage", "nomad", "storm",
   "human", "bird", "fish", "deer", "wolf", "horse", "sea",
   "river_detailed", "lake_detailed"]

end Shared

namespace Api

/-- ALLOWED_TAGS from src/api/generate.js. -/
def ALLOWED_TAGS : List String :=
  ["cacti", "rocks", "oasis", "ruins", "crystals", "mirage", "fireflies",
   "totems", "structures", "flora", "portals", "storm", "sentinels",
   "creatures", "nomads"]

/-- ENTITY_TYPES from src/api/generate.js: the canonical entity vocabulary
the serverless sanitizer accepts. -/
def ENTITY_TYPES : List String :=
  ["structure", "tower", "tree", "oasis", "water", "crystal", "portal",
   "fireflies", "totem", "rock", "dune", "bridge", "monolith", "flora",
   "creature", "sentinel", "cacti", "ruins", "mirage", "nomad", "storm"]

/-- ENTITY_ALIAS_MAP from src/api/generate.js. -/
def ENTITY_ALIAS_MAP : List (String × String) :=
  [("structures", "structure"), ("building", "structure"),
   ("buildings", "structure"), ("towers", "tower"), ("trees", "tree"),
   ("cactus", "cacti"), ("cactuses", "cacti"), ("oasis", "oasis"),
   ("waters", "water"), ("lakes", "water"), ("crystals", "crystal"),
   ("portals", "portal"), ("gateways", "portal"), ("firefly", "fireflies"),
   ("fireflies", "fireflies"), ("totems", "totem"), ("rocks", "rock"),
   ("stones", "rock"), ("dunes", "dune"), ("bridges", "bridge"),
   ("monoliths", "monolith"), ("florae", "flora"), ("plants", "flora"),
   ("creatures", "creature"), ("sentinels", "sentinel"),
   ("guardians", "sentinel"), ("ruins", "ruins"), ("temples", "ruins"),
   ("mirages", "mirage"), ("visions", "mirage"), ("nomads", "nomad"),
   ("caravans", "nomad"), ("storms", "storm")]

/-- Model of parseNumber from src/api/generate.js: finite number or parsed
string, null (none) otherwise. -/
def parseNumber (v : JVal) : Option ℚ :=
  match v with
  | .num q => some q
  | .str s => jsParseNumber (jsCommaToDot (jsTrim s))
  | _ => none

/-- Model of normalizeEntityType: lowercase, trim, alias-resolve with the
identity as default (every table value is truthy). -/
def normalizeEntityType (s : String) : String :=
  (strLookup ENTITY_ALIAS_MAP (jsTrim (jsToLower s))).getD (jsTrim (jsToLower s))

/-- Model of normalizeSize: fixed word lists for small, medium and large;
unrecognized words give the empty string (field omitted). -/
def normalizeSize (v : JVal) : String :=
  match v with
  | .str s =>
    let lower := jsTrim (jsToLower s)
    if ["tiny", "pequeño", "pequeno", "small", "mini"].contains lower then "small"
    else if ["medium", "mediano", "media"].contains lower then "medium"
    else if ["huge", "gigantic", "large", "enorme", "gran", "grande",
             "massive"].contains lower then "large"
    else ""
  | _ => ""

/-- Model of sanitizeColor: trim and cap at 24 characters, empty for
non-strings. -/
def sanitizeColor (v : JVal) : String :=
  match v with
  | .str s => jsTake 24 (jsTrim s)
  | _ => ""

/-- Resolution of the raw type: entry.entity || entry.type || entry.kind ||
entry.target || entry.label, then normalizeEntityType when a string. -/
def sanType (e : Candidate) : String :=
  match jjOr e.entity (jjOr e.type (jjOr e.kind (jjOr e.target e.label))) with
  | .str s => normalizeEntityType s
  | _ => ""

/-- One numeric dimension field: entry[key] ?? entry.attributes?.[key],
parsed and clamped to the documented [0.1, 400] range. -/
def sanDim (direct attr : JVal) : Option ℚ :=
  match parseNumber (jjNN direct attr) with
  | some q => some (clampNumber q (1 / 10) 400)
  | none => none

/-- Field of the nested attributes object, undefined when absent. -/
def attrOf (e : Candidate) (f : CandAttrs → JVal) : JVal :=
  match e.attributes with
  | some a => f a
  | none => .undefined

/-- Sanitization of one candidate entity by src/api/generate.js: drop
non-objects and entities whose resolved type is not a canonical member of
ENTITY_TYPES; clamp quantity to [1,10], scale to [0.3,4], spread to [0,400]
and every numeric dimension field to [0.1,400]. -/
def sanitizeEntity (it : JItem) : Option Descriptor :=
  match it with
  | .prim _ => none
  | .obj e =>
    let t := sanType e
    if ENTITY_TYPES.contains t then
      some {
        type := t
        quantity :=
          clampNumber (jsOrNum (parseNumber (jjNN e.quantity (jjNN e.count (.num 1)))) 1)
            1 10
        size := if normalizeSize e.size = "" then none else some (normalizeSize e.size)
        scale :=
          match parseNumber e.scale with
          | some q => some (clampNumber q (3 / 10) 4)
          | none => none
        color :=
          if sanitizeColor (jjNN e.color (jjNN e.tint (jjNN e.material e.hue))) = ""
          then none
          else some (sanitizeColor (jjNN e.color (jjNN e.tint (jjNN e.material e.hue))))
        trunkColor :=
          if sanitizeColor (jjNN e.trunkColor e.barkColor) = "" then none
          else some (sanitizeColor (jjNN e.trunkColor e.barkColor))
        foliageColor :=
          if sanitizeColor (jjNN e.foliageColor (jjNN e.leafColor e.secondaryColor)) = ""
          then none
          else some (sanitizeColor (jjNN e.foliageColor (jjNN e.leafColor e.secondaryColor)))
        detail :=
          match e.detail with
          | .str s => if jsTrim s = "" then none else some (jsTake 200 (jsTrim s))
          | _ => none
        floors := sanDim e.floors (attrOf e CandAttrs.floors)
        height := sanDim e.height (attrOf e CandAttrs.height)
        width := sanDim e.width (attrOf e CandAttrs.width)
        depth := sanDim e.depth (attrOf e CandAttrs.depth)
        radius := sanDim e.radius (attrOf e CandAttrs.radius)
        length := sanDim e.length (attrOf e CandAttrs.length)
        spread :=
          match parseNumber (jjNN e.spread e.range) with
          | some q => some (clampNumber q 0 400)
          | none => none
        thickness := sanDim e.thickness (attrOf e CandAttrs.thickness)
      }
    else none

/-- Model of sanitizeEntities from src/api/generate.js. -/
def sanitizeEntities (l : List JItem) : List Descriptor :=
  l.filterMap sanitizeEntity

/-- Handler tag sanitization (lines 153-159): map toString, lowercase, trim,
keep exact members of ALLOWED_TAGS. A null or undefined element makes
toString throw, which the outer catch turns into a 500 response; that throw
is modelled as none. -/
def handlerSanitizeTags (tags : List JVal) : Option (List String) :=
  if tags.any JVal.isNullish then none
  else
    some ((tags.map (fun t => jsTrim (jsToLower (jvalToString t)))).filter
      (fun t => ALLOWED_TAGS.contains t))

/-- Minimal model of the serverless response relevant to the tag guarantee. -/
structure HandlerResponse : Type where
  status : ℕ
  tags : List String
deriving DecidableEq

/-- Success path of the handler from the parsed model output onward: sanitize
the tags, inject the default tag mirage when none survive, and respond 200;
a toString throw falls to the outer catch and responds 500. -/
def handlerRespond (tags : List JVal) : HandlerResponse :=
  match handlerSanitizeTags tags with
  | none => { status := 500, tags := [] }
  | some sanitized =>
    { status := 200
      tags := if sanitized.isEmpty then ["mirage"] else sanitized }

end Api

namespace World

/-- MAX_PROMPT_OBJECTS from src/src/world.js. -/
def MAX_PROMPT_OBJECTS : ℕ := 120

/-- Object pool state: the live prompt objects in registration order and the
objects disposed so far, in disposal order. -/
structure PoolState (α : Type) : Type where
  live : List α
  disposed : List α
deriving DecidableEq

/-- Model of registerPromptObject: append the new object, then if the
population exceeds MAX_PROMPT_OBJECTS, shift out and dispose the oldest.
Array.prototype.shift removes and returns the head; the truthiness guard on
the shifted object is modelled by head?.toList (no disposal on an empty
pool, one disposal otherwise). -/
def registerPromptObject {α : Type} (s : PoolState α) (x : α) : PoolState α :=
  if MAX_PROMPT_OBJECTS < (s.live ++ [x]).length then
    { live := (s.live ++ [x]).tail
      disposed := s.disposed ++ (s.live ++ [x]).head?.toList }
  else { live := s.live ++ [x], disposed := s.disposed }

/-- Register a sequence of objects into an initially empty pool. -/
def registerAll {α : Type} (xs : List α) : PoolState α :=
  xs.foldl registerPromptObject { live := [], disposed := [] }

/-- Atmosphere parameter tuple of one day stage (DAY_STAGES entry). -/
structure StageSettings : Type where
  skyColor : ℕ
  fogColor : ℕ
  fogDensity : ℚ
  sunColor : ℕ
  sunIntensity : ℚ
  ambientIntensity : ℚ
deriving DecidableEq

/-- DAY_STAGES.amanecer from src/src/world.js. -/
def amanecer : StageSettings :=
  { skyColor := 0xfef5e8, fogColor := 0xf1dcb7, fogDensity := 0.0008
    sunColor := 0xffe5b5, sunIntensity := 1.35, ambientIntensity := 0.45 }

/-- DAY_STAGES.manana from src/src/world.js. -/
def manana : StageSettings :=
  { skyColor := 0xfdf6f1, fogColor := 0xf5e9ce, fogDensity := 0.0007
    sunColor := 0xfff0c3, sunIntensity := 1.6, ambientIntensity := 0.6 }

/-- DAY_STAGES.tarde from src/src/world.js. -/
def tarde : StageSettings :=
  { skyColor := 0xffe7c6, fogColor := 0xf0caa2, fogDensity := 0.0009
    sunColor := 0xffc16c, sunIntensity := 1.4, ambientIntensity := 0.5 }

/-- DAY_STAGES.atardecer from src/src/world.js. -/
def atardecer : StageSettings :=
  { skyColor := 0xf6b098, fogColor := 0xd39378, fogDensity := 0.0012
    sunColor := 0xf86c4f, sunIntensity := 1.1, ambientIntensity := 0.35 }

/-- DAY_STAGES.noche from src/src/world.js. -/
def noche : StageSettings :=
  { skyColor := 0x0d1220, fogColor := 0x0b0f1c, fogDensity := 0.0015
    sunColor := 0x6ab0ff, sunIntensity := 0.35, ambientIntensity := 0.2 }

/-- DAY_STAGES keyed access. -/
def DAY_STAGES : String → Option StageSettings
  | "amanecer" => some amanecer
  | "manana" => some manana
  | "tarde" => some tarde
  | "atardecer" => some atardecer
  | "noche" => some noche
  | _ => none

/-- Scene atmosphere state touched by setDayStage: background and sky
material color, fog color and density, ambient and sun light parameters. -/
structure SceneAtmo : Type where
  background : ℕ
  fogColor : ℕ
  fogDensity : ℚ
  ambientIntensity : ℚ
  sunIntensity : ℚ
  sunColor : ℕ
  skyMaterialColor : ℕ
deriving DecidableEq

/-- Full application of one stage's parameter tuple to the scene. -/
def stageAtmo (s : StageSettings) : SceneAtmo :=
  { background := s.skyColor, fogColor := s.fogColor
    fogDensity := s.fogDensity, ambientIntensity := s.ambientIntensity
    sunIntensity := s.sunIntensity, sunColor := s.sunColor
    skyMaterialColor := s.skyColor }

/-- Model of setDayStage: DAY_STAGES[stage] || DAY_STAGES.amanecer, then all
seven scene parameters are written from the chosen tuple. -/
def setDayStage (stage : String) (_prev : SceneAtmo) : SceneAtmo :=
  stageAtmo ((DAY_STAGES stage).getD amanecer)

/-- Tag cases of the spawnHandlers switch in src/src/world.js. -/
def TAG_SPAWN_CASES : List String :=
  ["cacti", "rocks", "oasis", "ruins", "crystals", "mirage", "fireflies",
   "totems", "creatures", "nomads", "structures", "storm", "flora",
   "portals", "sentinels"]

/-- Capability chosen by spawnHandlers: each known tag has its own spawner
and the default case spawns the mirage capability. -/
def spawnHandlerKey (tag : String) : String :=
  if TAG_SPAWN_CASES.contains tag then tag else "mirage"

/-- Keys of the ENTITY_SPAWNERS capability table in src/src/world.js. -/
def ENTITY_SPAWNER_KEYS : List String :=
  ["structure", "tower", "tree", "oasis", "water", "crystal", "portal",
   "fireflies", "totem", "rock", "dune", "bridge", "monolith", "flora",
   "creature", "sentinel", "cacti", "ruins", "mirage", "nomad", "storm"]

/-- Model of Number(value) as used by clampInstructionQuantity: none stands
for a non-finite result. -/
def jsToNumber (v : JVal) : Option ℚ :=
  match v with
  | .undefined => none
  | .null => some 0
  | .jbool b => some (if b then 1 else 0)
  | .num q => some q
  | .nan => none
  | .str s => jsParseNumber (jsTrim s)

/-- Model of Math.round: half-up rounding toward positive infinity. -/
def jsRound (q : ℚ) : ℤ := ⌊q + 1 / 2⌋

/-- Model of clampInstructionQuantity: 1 for a non-finite quantity, otherwise
the rounded value clamped to [1, 8]. -/
def clampInstructionQuantity (v : JVal) : ℤ :=
  match jsToNumber v with
  | none => 1
  | some q => max 1 (min 8 (jsRound q))

/-- Lowercased type field consulted by spawnFromEntities (no trim here). -/
def spawnEntityType (e : Candidate) : String :=
  match e.type with
  | .str s => jsToLower s
  | _ => ""

/-- Placements produced for one entity descriptor by spawnFromEntities: the
handler lookup has no default, so a type absent from ENTITY_SPAWNERS yields
no placement at all; a registered type is placed quantity times. -/
def spawnEntityPlacements (it : JItem) : List String :=
  match it with
  | .prim _ => []
  | .obj e =>
    let t := spawnEntityType e
    if ENTITY_SPAWNER_KEYS.contains t then
      List.replicate (clampInstructionQuantity e.quantity).toNat t
    else []

/-- Model of spawnFromEntities: the ordered list of capability keys invoked,
one per placed instance. -/
def spawnFromEntities (l : List JItem) : List String :=
  l.foldr (fun it acc => spawnEntityPlacements it ++ acc) []

end World

namespace Fallback

/-- KEYWORD_MAP literal from src/unnamed/part_002, in source order with the
duplicate keys the object literal contains (cactus three times, guardian and
portal twice); objectEntries below models JavaScript literal semantics. -/
def KEYWORD_MAP : List (String × String) :=
  [("cactus", "cacti"), ("cactos", "cacti"), ("cactus", "cacti"),
   ("roca", "rocks"), ("rocas", "rocks"), ("piedra", "rocks"),
   ("piedras", "rocks"),
   ("ruina", "ruins"), ("ruinas", "ruins"), ("templo", "temple"),
   ("templos", "temple"),
   ("oasis", "oasis"), ("lago", "water"), ("agua", "water"), ("rio", "water"),
   ("cristal", "crystal"), ("cristales", "crystal"),
   ("espejismo", "mirage"), ("mirage", "mirage"),
   ("luciernaga", "fireflies"), ("luciernagas", "fireflies"),
   ("fireflies", "fireflies"),
   ("totem", "totem"), ("totems", "totem"), ("totemes", "totem"),
   ("criatura", "creature"), ("criaturas", "creature"),
   ("monstruo", "creature"),
   ("nomada", "nomad"), ("nomadas", "nomad"), ("campamento", "tent"),
   ("estructura", "structure"), ("torre", "tower"), ("torres", "tower"),
   ("tormenta", "storm"), ("rayo", "storm"), ("rayos", "storm"),
   ("flora", "flora"), ("planta", "flora"), ("plantas", "flora"),
   ("flor", "flora"), ("flores", "flora"),
   ("portal", "portal"), ("portales", "portal"),
   ("centinela", "sentinel"), ("centinelas", "sentinel"),
   ("guardian", "sentinel"),
   ("montana", "mountain"), ("montanas", "mountain"),
   ("montaña", "mountain"), ("montañas", "mountain"),
   ("piramide", "pyramid"), ("piramides", "pyramid"),
   ("pirámide", "pyramid"),
   ("estatua", "statue"), ("estatuas", "statue"),
   ("cascada", "waterfall"), ("cascadas", "waterfall"),
   ("aurora", "aurora"), ("boreal", "aurora"),
   ("cometa", "comet"), ("cometas", "comet"), ("meteoro", "comet"),
   ("calavera", "skull"), ("craneo", "skull"), ("huesos", "skull"),
   ("geiser", "geyser"), ("geyser", "geyser"),
   ("nebulosa", "nebula"), ("nebula", "nebula"), ("estrellas", "nebula"),
   ("fogata", "campfire"), ("fuego", "campfire"), ("hoguera", "campfire"),
   ("tienda", "tent"), ("carpa", "tent"),
   ("arbol", "tree"), ("arboles", "tree"), ("palmera", "tree"),
   ("palma", "tree"),
   ("duna", "dune"), ("dunas", "dune"), ("arena", "dune"),
   ("puente", "bridge"), ("puentes", "bridge"),
   ("monolito", "monolith"), ("monolitos", "monolith"),
   ("hongo", "flora"), ("hongos", "flora"), ("seta", "flora"),
   ("rock", "rocks"), ("rocks", "rocks"), ("stone", "rocks"),
   ("cactus", "cacti"), ("cacti", "cacti"),
   ("ruin", "ruins"), ("ruins", "ruins"), ("temple", "temple"),
   ("crystal", "crystal"), ("crystals", "crystal"),
   ("water", "water"), ("lake", "water"), ("river", "water"),
   ("pond", "water"),
   ("tree", "tree"), ("trees", "tree"), ("palm", "tree"),
   ("mountain", "mountain"), ("mountains", "mountain"),
   ("pyramid", "pyramid"), ("pyramids", "pyramid"),
   ("statue", "statue"), ("statues", "statue"),
   ("waterfall", "waterfall"), ("waterfalls", "waterfall"),
   ("comet", "comet"), ("meteor", "comet"),
   ("skull", "skull"), ("bones", "skull"),
   ("fire", "campfire"), ("campfire", "campfire"),
   ("tent", "tent"), ("camp", "tent"),
   ("storm", "storm"), ("lightning", "storm"),
   ("creature", "creature"), ("monster", "creature"),
   ("sentinel", "sentinel"), ("guardian", "sentinel"),
   ("portal", "portal"), ("gate", "portal")]

/-- One step of JavaScript object-literal construction: a repeated key keeps
its first position but takes the latest value. -/
def insertEntry (acc : List (String × String)) (p : String × String) :
    List (String × String) :=
  if (acc.map Prod.fst).contains p.1 then
    acc.map (fun q => if q.1 = p.1 then (q.1, p.2) else q)
  else acc ++ [p]

/-- Object.entries of an object literal given as an ordered pair list. -/
def objectEntries (ps : List (String × String)) : List (String × String) :=
  ps.foldl insertEntry []

/-- Entity emitted by the local fallback generator. -/
structure GenEntity : Type where
  type : String
  quantity : ℤ
deriving DecidableEq

/-- Plan returned by the local fallback generator. -/
structure GenPlan : Type where
  summary : String
  entities : List GenEntity
deriving DecidableEq

/-- State threaded through the generator loops: entities collected so far,
entity types already found, and the index of the next Math.random() draw. -/
structure ScanState : Type where
  entities : List GenEntity
  found : List String
  k : ℕ
deriving DecidableEq

/-- Keyword-scan step: on the first match of a new entity type, add one
descriptor with quantity 1 + floor(random * 3). -/
def scanStep (lower : String) (rng : ℕ → ℚ) (st : ScanState)
    (p : String × String) : ScanState :=
  if jsIncludes lower p.1 && !st.found.contains p.2 then
    { entities := st.entities ++ [{ type := p.2, quantity := 1 + ⌊rng st.k * 3⌋ }]
      found := st.found ++ [p.2]
      k := st.k + 1 }
  else st

/-- Keyword scan over Object.entries(KEYWORD_MAP). -/
def keywordScan (lower : String) (rng : ℕ → ℚ) : ScanState :=
  (objectEntries KEYWORD_MAP).foldl (scanStep lower rng) ⟨[], [], 0⟩

/-- Safe palette used when no keyword matches. -/
def randomTypes : List String :=
  ["rocks", "cacti", "mirage", "crystal", "flora", "dune"]

/-- Random-landscape loop: count iterations, each drawing a palette type and,
when the type is new, a quantity 1 + floor(random * 2). -/
def fillLoop (rng : ℕ → ℚ) : ℕ → ScanState → ScanState
  | 0, st => st
  | n + 1, st =>
    let ty := randomTypes.getD (⌊rng st.k * 6⌋).toNat ""
    if st.found.contains ty then fillLoop rng n { st with k := st.k + 1 }
    else
      fillLoop rng n
        { entities := st.entities ++ [{ type := ty, quantity := 1 + ⌊rng (st.k + 1) * 2⌋ }]
          found := st.found ++ [ty]
          k := st.k + 2 }

/-- Model of localGenerateFromPrompt from src/unnamed/part_002, with
Math.random() modelled as the stream rng of draws in [0, 1). -/
def localGenerateFromPrompt (prompt : String) (rng : ℕ → ℚ) : GenPlan :=
  let lower := jsToLower prompt
  let st := keywordScan lower rng
  let st2 :=
    if st.entities.isEmpty then
      fillLoop rng (2 + ⌊rng st.k * 3⌋).toNat { st with k := st.k + 1 }
    else st
  { summary := "Paisaje generado localmente", entities := st2.entities }

end Fallback

/-
  Theorems.
-/

section PoolTheorems

open World

/-- Peeling the last registration off a registration sequence. -/
theorem registerAll_concat {α : Type} (xs : List α) (x : α) :
    registerAll (xs ++ [x]) = registerPromptObject (registerAll xs) x := by
  simp [registerAll, List.foldl_append]

set_option maxRecDepth 4000

/-- Closed form of the pool after any registration sequence: the live set is
the suffix of the last MAX_PROMPT_OBJECTS registrations and the disposed set
is the evicted prefix, both in order. -/
theorem registerAll_spec {α : Type} (xs : List α) :
    registerAll xs =
      { live := xs.drop (xs.length - MAX_PROMPT_OBJECTS)
        disposed := xs.take (xs.length - MAX_PROMPT_OBJECTS) } := by
  induction xs using List.reverseRecOn with
  | nil => rfl
  | append_singleton xs x ih =>
    rw [registerAll_concat, ih]
    simp only [registerPromptObject, List.length_append, List.length_cons,
      List.length_nil]
    by_cases hlt : xs.length < MAX_PROMPT_OBJECTS
    · have h0 : xs.length - MAX_PROMPT_OBJECTS = 0 := by omega
      have h1 : xs.length + 0 + 1 - MAX_PROMPT_OBJECTS = 0 := by omega
      have hco : ¬ MAX_PROMPT_OBJECTS <
          (xs.drop (xs.length - MAX_PROMPT_OBJECTS)).length + 0 + 1 := by
        simp only [List.length_drop]
        omega
      rw [if_neg hco, h0, h1]
      simp
    · push_neg at hlt
      have hidx : xs.length - MAX_PROMPT_OBJECTS < xs.length := by
        have hpos : 0 < MAX_PROMPT_OBJECTS := by norm_num [MAX_PROMPT_OBJECTS]
        omega
      have hdecomp : xs.drop (xs.length - MAX_PROMPT_OBJECTS) =
          xs[xs.length - MAX_PROMPT_OBJECTS] ::
            xs.drop (xs.length - MAX_PROMPT_OBJECTS + 1) :=
        List.drop_eq_getElem_cons hidx
      have hcond : MAX_PROMPT_OBJECTS <
          (xs.drop (xs.length - MAX_PROMPT_OBJECTS)).length + 0 + 1 := by
        simp only [List.length_drop]
        omega
      rw [if_pos hcond, hdecomp]
      have hsucc : xs.length - MAX_PROMPT_OBJECTS + 1 =
          xs.length + 0 + 1 - MAX_PROMPT_OBJECTS := by omega
      simp only [List.cons_append, List.tail_cons, List.head?_cons,
        Option.toList_some, PoolState.mk.injEq]
      constructor
      · rw [hsucc, List.drop_append_eq_append_drop]
        have h2 : xs.length + 0 + 1 - MAX_PROMPT_OBJECTS - xs.length = 0 := by
          omega
        simp [h2]
      · rw [List.take_append_eq_append_take]
        have h3 : xs.length + 0 + 1 - MAX_PROMPT_OBJECTS - xs.length = 0 := by
          omega
        rw [h3]
        simp only [List.take_zero, List.append_nil]
        rw [← hsucc, List.take_succ]
        have h4 : xs[xs.length - MAX_PROMPT_OBJECTS]? =
            some xs[xs.length - MAX_PROMPT_OBJECTS] :=
          List.getElem?_eq_getElem hidx
        simp [h4]

/-- C2: after every register call the pool population is at most
MAX_PROMPT_OBJECTS = 120, and after 120 + k registrations (k > 0) the
population is exactly 120 with precisely the k earliest-registered objects
evicted and disposed, in insertion order (strict FIFO). -/
theorem pool_bounded_fifo (α : Type) (xs : List α) (k : ℕ)
    (h : xs.length = MAX_PROMPT_OBJECTS + k) (hk : 0 < k) :
    (registerAll xs).live = xs.drop k ∧
    (registerAll xs).live.length = MAX_PROMPT_OBJECTS ∧
    (registerAll xs).disposed = xs.take k ∧
    ∀ (ys : List α), (registerAll ys).live.length ≤ MAX_PROMPT_OBJECTS := by
  have hs := registerAll_spec xs
  have hk120 : xs.length - MAX_PROMPT_OBJECTS = k := by omega
  refine ⟨by rw [hs, hk120], ?_, by rw [hs, hk120], ?_⟩
  · rw [hs, hk120]
    simp only [List.length_drop]
    omega
  · intro ys
    rw [registerAll_spec ys]
    simp only [List.length_drop]
    omega

/-- Witness for pool_bounded_fifo at 121 concrete registrations. -/
theorem pool_bounded_fifo_witness :
    (registerAll (List.range 121)).live = (List.range 121).drop 1 :=
  (pool_bounded_fifo ℕ (List.range 121) 1 (by simp [MAX_PROMPT_OBJECTS])
    (by decide)).1

end PoolTheorems

section DayStageTheorems

open World

/-- C7: setDayStage is total and idempotent; an unrecognized stage (such as
"notreal") applies the full amanecer tuple, a recognized stage applies its
own full tuple, and the result never depends on the previous scene state (no
mixed or partial state). -/
theorem setDayStage_total_idempotent (stage : String) (prev : SceneAtmo) :
    setDayStage stage (setDayStage stage prev) = setDayStage stage prev ∧
    (DAY_STAGES stage = none → setDayStage stage prev = stageAtmo amanecer) ∧
    (∀ s, DAY_STAGES stage = some s → setDayStage stage prev = stageAtmo s) ∧
    setDayStage "notreal" prev = stageAtmo amanecer := by
  refine ⟨rfl, ?_, ?_, rfl⟩
  · intro h
    simp [setDayStage, h]
  · intro s h
    simp [setDayStage, h]

/-- Witness for setDayStage_total_idempotent: the unknown stage "notreal"
lands on the amanecer tuple from an arbitrary concrete scene state. -/
theorem setDayStage_total_idempotent_witness :
    setDayStage "notreal" (stageAtmo noche) = stageAtmo amanecer :=
  (setDayStage_total_idempotent "notreal" (stageAtmo noche)).2.1 rfl

end DayStageTheorems

section HandlerTheorems

/-- C10: whenever the serverless generate handler reaches a 200 response,
its tags list is non-empty — if sanitization leaves no allowed tag, the
default tag mirage is injected before responding. -/
theorem handler_ok_tags_nonempty (tags : List JVal) (r : Api.HandlerResponse)
    (hr : Api.handlerRespond tags = r) (h200 : r.status = 200) :
    r.tags ≠ [] := by
  unfold Api.handlerRespond at hr
  cases hs : Api.handlerSanitizeTags tags with
  | none =>
    rw [hs] at hr
    rw [← hr] at h200
    simp at h200
  | some sanitized =>
    rw [hs] at hr
    rw [← hr]
    by_cases he : sanitized.isEmpty
    · simp [he]
    · simp [he]
      intro hnil
      rw [hnil] at he
      simp at he

/-- Witness for handler_ok_tags_nonempty on an empty parsed tag list. -/
theorem handler_ok_tags_nonempty_witness :
    (Api.handlerRespond []).tags ≠ [] :=
  handler_ok_tags_nonempty [] (Api.handlerRespond []) rfl rfl

end HandlerTheorems

section TagTheorems

/-- Adding a vocabulary member to a subset of the vocabulary stays inside. -/
theorem addTag_subset_known {S acc : List String} (t : String)
    (h : ∀ u ∈ acc, u ∈ S) (ht : t ∈ S) : ∀ u ∈ addTag acc t, u ∈ S := by
  intro u hu
  unfold addTag at hu
  split at hu
  · exact h u hu
  · rcases List.mem_append.mp hu with hc | hc
    · exact h u hc
    · rw [List.mem_singleton.mp hc]
      exact ht

/-- A found heuristic tag is one of the branch tags. -/
theorem heuristicFind_mem :
    ∀ (L : List (List String × String)) (n t : String),
      heuristicFind L n = some t → t ∈ L.map Prod.snd := by
  intro L
  induction L with
  | nil => intro n t h; simp [heuristicFind] at h
  | cons p rest ih =>
    intro n t h
    obtain ⟨pats, tg⟩ := p
    simp only [heuristicFind] at h
    by_cases hc : pats.any (fun q => jsIncludes n q) = true
    · rw [if_pos hc] at h
      obtain rfl := Option.some.inj h
      simp
    · rw [if_neg hc] at h
      simp only [List.map_cons, List.mem_cons]
      exact Or.inr (ih n t h)

/-- Every heuristic branch of the main.js tag heuristics adds a vocabulary
member. -/
theorem tagHeuristic_subset (n : String) (acc : List String)
    (h : ∀ u ∈ acc, u ∈ Client.KNOWN_TAGS) :
    ∀ u ∈ Client.tagHeuristic n acc, u ∈ Client.KNOWN_TAGS := by
  intro u hu
  unfold Client.tagHeuristic at hu
  cases hf : heuristicFind Client.TAG_HEURISTICS n with
  | none =>
    rw [hf] at hu
    exact h u hu
  | some t =>
    rw [hf] at hu
    have ht : t ∈ Client.KNOWN_TAGS := by
      have hall : ∀ x ∈ Client.TAG_HEURISTICS.map Prod.snd,
          x ∈ Client.KNOWN_TAGS := by decide
      exact hall t (heuristicFind_mem _ _ _ hf)
    exact addTag_subset_known _ h ht u hu

/-- Every heuristic branch of the constants.js tag heuristics adds a
vocabulary member. -/
theorem sharedTagHeuristic_subset (n : String) (acc : List String)
    (h : ∀ u ∈ acc, u ∈ Client.KNOWN_TAGS) :
    ∀ u ∈ Shared.tagHeuristic n acc, u ∈ Client.KNOWN_TAGS := by
  intro u hu
  unfold Shared.tagHeuristic at hu
  cases hf : heuristicFind Shared.TAG_HEURISTICS n with
  | none =>
    rw [hf] at hu
    exact h u hu
  | some t =>
    rw [hf] at hu
    have ht : t ∈ Client.KNOWN_TAGS := by
      have hall : ∀ x ∈ Shared.TAG_HEURISTICS.map Prod.snd,
          x ∈ Client.KNOWN_TAGS := by decide
      exact hall t (heuristicFind_mem _ _ _ hf)
    exact addTag_subset_known _ h ht u hu

/-- One main.js normalization step preserves vocabulary membership. -/
theorem normalizeTagStep_subset (acc : List String) (v : JVal)
    (h : ∀ u ∈ acc, u ∈ Client.KNOWN_TAGS) :
    ∀ u ∈ Client.normalizeTagStep acc v, u ∈ Client.KNOWN_TAGS := by
  intro u hu
  simp only [Client.normalizeTagStep] at hu
  split_ifs at hu with h1 h2
  · exact h u hu
  · exact addTag_subset_known _ h (by simpa using h2) u hu
  · exact tagHeuristic_subset _ _ h u hu

/-- One constants.js normalization step preserves vocabulary membership. -/
theorem sharedTagStep_subset (acc : List String) (v : JVal)
    (h : ∀ u ∈ acc, u ∈ Client.KNOWN_TAGS) :
    ∀ u ∈ Shared.normalizeTagStep acc v, u ∈ Client.KNOWN_TAGS := by
  intro u hu
  simp only [Shared.normalizeTagStep] at hu
  split_ifs at hu with h1 h2
  · exact h u hu
  · exact addTag_subset_known _ h (by simpa using h2) u hu
  · exact sharedTagHeuristic_subset _ _ h u hu

/-- Folding a vocabulary-preserving step keeps every accumulated tag in the
vocabulary. -/
theorem foldl_tags_subset {step : List String → JVal → List String}
    (hstep : ∀ acc v, (∀ u ∈ acc, u ∈ Client.KNOWN_TAGS) →
      ∀ u ∈ step acc v, u ∈ Client.KNOWN_TAGS) :
    ∀ (l : List JVal) (acc : List String),
      (∀ u ∈ acc, u ∈ Client.KNOWN_TAGS) →
      ∀ u ∈ l.foldl step acc, u ∈ Client.KNOWN_TAGS := by
  intro l
  induction l with
  | nil => intro acc h; simpa using h
  | cons v vs ih => intro acc h; exact ih _ (hstep acc v h)

/-- C5: every tag returned by tag normalization (both the main.js and the
constants.js copy) is a member of the fixed closed tag vocabulary; unmatched
tokens are silently dropped, and the candidate tags ["CRYSTALS", " bogus "]
normalize to exactly the set containing crystals. -/
theorem tags_closed_vocabulary :
    (∀ (l : List JVal) (t : String),
      t ∈ Client.normalizeTags l → t ∈ Client.KNOWN_TAGS) ∧
    (∀ (l : List JVal) (t : String),
      t ∈ Shared.normalizeTags l → t ∈ Client.KNOWN_TAGS) ∧
    Client.normalizeTags [.str "CRYSTALS", .str " bogus "] = ["crystals"] ∧
    Shared.normalizeTags [.str "CRYSTALS", .str " bogus "] = ["crystals"] := by
  refine ⟨?_, ?_, by decide, by decide⟩
  · intro l t ht
    exact foldl_tags_subset normalizeTagStep_subset l [] (by simp) t ht
  · intro l t ht
    exact foldl_tags_subset sharedTagStep_subset l [] (by simp) t ht

/-- Witness for tags_closed_vocabulary on the crystals scenario. -/
theorem tags_closed_vocabulary_witness : "crystals" ∈ Client.KNOWN_TAGS :=
  tags_closed_vocabulary.1 [.str "CRYSTALS", .str " bogus "] "crystals"
    (by decide)

end TagTheorems

section EntityTheorems

/-- Clamping lands inside the clamp interval whenever it is nonempty. -/
theorem clampNumber_bounds (v : ℚ) {lo hi : ℚ} (h : lo ≤ hi) :
    lo ≤ clampNumber v lo hi ∧ clampNumber v lo hi ≤ hi :=
  ⟨le_max_left _ _, max_le h (min_le_left _ _)⟩

/-- Membership in the client normalizer output comes from some candidate. -/
theorem mem_normalizeEntities {l : List JItem} {d : Descriptor}
    (h : d ∈ Client.normalizeEntities l) :
    ∃ e : Candidate, Client.normEntity (.obj e) = some d := by
  rcases List.mem_filterMap.mp h with ⟨it, _, hit⟩
  cases it with
  | prim v => simp [Client.normEntity] at hit
  | obj e => exact ⟨e, hit⟩

/-- Membership in the serverless sanitizer output comes from some candidate. -/
theorem mem_sanitizeEntities {l : List JItem} {d : Descriptor}
    (h : d ∈ Api.sanitizeEntities l) :
    ∃ e : Candidate, Api.sanitizeEntity (.obj e) = some d := by
  rcases List.mem_filterMap.mp h with ⟨it, _, hit⟩
  cases it with
  | prim v => simp [Api.sanitizeEntity] at hit
  | obj e => exact ⟨e, hit⟩

/-- Candidate of the quantity/height scenario shared by several claims. -/
def towersCandidate : JItem :=
  .obj { type := .str "towers", quantity := .num 999, height := .str "abc" }

/-- C4 counterexample: the client normalizer keeps the non-integral quantity
2.5 as is (quantity is not rounded to an integer), and the two call sites
clamp the same 999 to different maxima (8 client-side, 10 server-side), so
no single documented clamp range covers every call site. -/
theorem quantity_integer_single_range_cex :
    (Client.normalizeEntities
        [.obj { type := .str "tower", quantity := .num (5 / 2) }]).map
      Descriptor.quantity = [5 / 2] ∧
    (∀ n : ℤ, ((n : ℚ)) ≠ 5 / 2) ∧
    (Client.normalizeEntities [towersCandidate]).map Descriptor.quantity = [8] ∧
    (Api.sanitizeEntities [towersCandidate]).map Descriptor.quantity = [10] := by
  refine ⟨by decide, ?_, by decide, by decide⟩
  intro n h
  have h2 : 2 * (n : ℚ) = 5 := by rw [h]; norm_num
  have h3 : ((2 * n : ℤ) : ℚ) = ((5 : ℤ) : ℚ) := by push_cast; linarith
  have h4 : (2 * n : ℤ) = 5 := by exact_mod_cast h3
  omega

/-- C4 amended: each call site clamps quantity to its own range, [1,8] in the
client normalizer and [1,10] in the serverless sanitizer, without rounding
to an integer; the scenario entity {type:"towers", quantity:999,
height:"abc"} resolves to canonical type tower with quantity equal to that
site's maximum and the unparseable height omitted. -/
theorem quantity_clamped_per_site :
    (∀ (l : List JItem) (d : Descriptor), d ∈ Client.normalizeEntities l →
      1 ≤ d.quantity ∧ d.quantity ≤ 8) ∧
    (∀ (l : List JItem) (d : Descriptor), d ∈ Api.sanitizeEntities l →
      1 ≤ d.quantity ∧ d.quantity ≤ 10) ∧
    Client.normalizeEntities [towersCandidate] =
      [{ type := "tower", quantity := 8 }] ∧
    Api.sanitizeEntities [towersCandidate] =
      [{ type := "tower", quantity := 10 }] := by
  refine ⟨?_, ?_, by decide, by decide⟩
  · intro l d hd
    rcases mem_normalizeEntities hd with ⟨e, he⟩
    simp only [Client.normEntity] at he
    by_cases ht : Client.entityType e = ""
    · rw [if_pos ht] at he
      exact absurd he (by simp)
    · rw [if_neg ht] at he
      obtain rfl := Option.some.inj he
      exact clampNumber_bounds _ (by norm_num)
  · intro l d hd
    rcases mem_sanitizeEntities hd with ⟨e, he⟩
    simp only [Api.sanitizeEntity] at he
    by_cases ht : Api.ENTITY_TYPES.contains (Api.sanType e)
    · rw [if_pos ht] at he
      obtain rfl := Option.some.inj he
      exact clampNumber_bounds _ (by norm_num)
    · rw [if_neg ht] at he
      exact absurd he (by simp)

/-- Witness for quantity_clamped_per_site at the towers scenario output. -/
theorem quantity_clamped_per_site_witness :
    1 ≤ ({ type := "tower", quantity := 8 } : Descriptor).quantity ∧
    ({ type := "tower", quantity := 8 } : Descriptor).quantity ≤ 8 :=
  quantity_clamped_per_site.1 [towersCandidate]
    { type := "tower", quantity := 8 } (by decide)

/-- A produced dimension field of the sanitizer is clamped to [0.1, 400]. -/
theorem sanDim_bounds {a b : JVal} {q : ℚ} (h : Api.sanDim a b = some q) :
    1 / 10 ≤ q ∧ q ≤ 400 := by
  unfold Api.sanDim at h
  cases hp : Api.parseNumber (jjNN a b) with
  | none => rw [hp] at h; simp at h
  | some v =>
    rw [hp] at h
    obtain rfl := Option.some.inj h
    exact clampNumber_bounds _ (by norm_num)

/-- C1 counterexample: the client normalizer (src/src/main.js) passes the
out-of-range height 1000 through unclamped, so a returned descriptor can
carry a numeric dimension field outside [0.1, 400]. -/
theorem numeric_clamp_cex :
    (Client.normalizeEntities
        [.obj { type := .str "tower", height := .num 1000 }]).map
      Descriptor.height = [some 1000] ∧
    ¬ ((1000 : ℚ) ≤ 400) := by
  refine ⟨by decide, by norm_num⟩

/-- C1 amended: the serverless sanitizeEntities clamps every declared
numeric dimension field (floors, height, width, depth, radius, length,
thickness) to [0.1, 400], spread to [0, 400] and scale to [0.3, 4], and
never returns an out-of-range numeric field; the client normalizeEntities
instead passes any finite numeric dimension value through unclamped,
omitting only unparseable values. -/
theorem numeric_fields_clamped :
    (∀ (l : List JItem) (d : Descriptor), d ∈ Api.sanitizeEntities l →
      (∀ q, d.floors = some q → 1 / 10 ≤ q ∧ q ≤ 400) ∧
      (∀ q, d.height = some q → 1 / 10 ≤ q ∧ q ≤ 400) ∧
      (∀ q, d.width = some q → 1 / 10 ≤ q ∧ q ≤ 400) ∧
      (∀ q, d.depth = some q → 1 / 10 ≤ q ∧ q ≤ 400) ∧
      (∀ q, d.radius = some q → 1 / 10 ≤ q ∧ q ≤ 400) ∧
      (∀ q, d.length = some q → 1 / 10 ≤ q ∧ q ≤ 400) ∧
      (∀ q, d.thickness = some q → 1 / 10 ≤ q ∧ q ≤ 400) ∧
      (∀ q, d.spread = some q → 0 ≤ q ∧ q ≤ 400) ∧
      (∀ q, d.scale = some q → 3 / 10 ≤ q ∧ q ≤ 4)) ∧
    (∀ q : ℚ,
      (Client.normalizeEntities [.obj { type := .str "tower", height := .num q }]).map
        Descriptor.height = [some q]) := by
  constructor
  · intro l d hd
    rcases mem_sanitizeEntities hd with ⟨e, he⟩
    simp only [Api.sanitizeEntity] at he
    by_cases ht : Api.ENTITY_TYPES.contains (Api.sanType e)
    · rw [if_pos ht] at he
      obtain rfl := Option.some.inj he
      refine ⟨fun q hq => sanDim_bounds hq, fun q hq => sanDim_bounds hq,
        fun q hq => sanDim_bounds hq, fun q hq => sanDim_bounds hq,
        fun q hq => sanDim_bounds hq, fun q hq => sanDim_bounds hq,
        fun q hq => sanDim_bounds hq, ?_, ?_⟩
      · intro q hq
        revert hq
        show (match Api.parseNumber (jjNN _ _) with
          | some v => some (clampNumber v 0 400)
          | none => none) = some q → _
        cases hp : Api.parseNumber (jjNN _ _) with
        | none => intro hq; simp at hq
        | some v =>
          intro hq
          obtain rfl := Option.some.inj hq
          exact clampNumber_bounds _ (by norm_num)
      · intro q hq
        revert hq
        show (match Api.parseNumber _ with
          | some v => some (clampNumber v (3 / 10) 4)
          | none => none) = some q → _
        cases hp : Api.parseNumber _ with
        | none => intro hq; simp at hq
        | some v =>
          intro hq
          obtain rfl := Option.some.inj hq
          exact clampNumber_bounds _ (by norm_num)
    · rw [if_neg ht] at he
      exact absurd he (by simp)
  · intro q
    rfl

/-- Witness for numeric_fields_clamped: a concrete sanitized descriptor with
clamped height. -/
theorem numeric_fields_clamped_witness :
    1 / 10 ≤ (400 : ℚ) ∧ (400 : ℚ) ≤ 400 :=
  ((numeric_fields_clamped.1
    [.obj { type := .str "tower", height := .num 1000 }]
    { type := "tower", quantity := 1, height := some 400 }
    (by decide)).2.1) 400 rfl

/-- Candidate with an unknown type, shared by the C3 theorems. -/
def bananaCandidate : JItem := .obj { type := .str "banana" }

/-- C3 counterexample: the client normalizer emits a descriptor whose type
"banana" is not canonical (it is in no EntityType vocabulary), instead of
dropping the descriptor; only the serverless sanitizer drops it. -/
theorem canonical_type_cex :
    Client.normalizeEntities [bananaCandidate] =
      [{ type := "banana", quantity := 1 }] ∧
    "banana" ∉ Api.ENTITY_TYPES ∧ "banana" ∉ Shared.ENTITY_TYPES := by
  refine ⟨by decide, by decide, by decide⟩

/-- C3 amended: the serverless sanitizeEntities drops every candidate whose
alias-resolved type is not in ENTITY_TYPES, so each emitted descriptor has a
canonical type; the client normalizeEntities drops a candidate exactly when
its resolved type string is empty, and otherwise emits the alias-resolved
type even when it is not canonical. -/
theorem canonical_type_amended :
    (∀ (l : List JItem) (d : Descriptor), d ∈ Api.sanitizeEntities l →
      d.type ∈ Api.ENTITY_TYPES) ∧
    (∀ e : Candidate,
      Client.normEntity (.obj e) = none ↔ Client.entityType e = "") := by
  constructor
  · intro l d hd
    rcases mem_sanitizeEntities hd with ⟨e, he⟩
    simp only [Api.sanitizeEntity] at he
    by_cases ht : Api.ENTITY_TYPES.contains (Api.sanType e)
    · rw [if_pos ht] at he
      obtain rfl := Option.some.inj he
      simpa using ht
    · rw [if_neg ht] at he
      exact absurd he (by simp)
  · intro e
    simp only [Client.normEntity]
    by_cases ht : Client.entityType e = ""
    · rw [if_pos ht]
      simp [ht]
    · rw [if_neg ht]
      simp [ht]

/-- Witness for canonical_type_amended on the sanitized towers scenario. -/
theorem canonical_type_amended_witness : "tower" ∈ Api.ENTITY_TYPES :=
  canonical_type_amended.1 [towersCandidate]
    { type := "tower", quantity := 10 } (by decide)

end EntityTheorems

section SpawnTheorems

/-- Entity candidate of the silent-discard counterexample. -/
def humanCandidate : Candidate := { type := .str "human", quantity := .num 3 }

/-- Entity candidate with a registered spawner capability. -/
def crystalCandidate : Candidate :=
  { type := .str "crystal", quantity := .num 3 }

/-- C6 counterexample: "human" is a canonical entity type of the shared
constants vocabulary, yet spawnFromEntities produces no placement for it —
the descriptor is silently discarded because ENTITY_SPAWNERS has no entry
and no default fallback is applied on the entity path. -/
theorem spawn_silent_discard_cex :
    "human" ∈ Shared.ENTITY_TYPES ∧
    "human" ∉ World.ENTITY_SPAWNER_KEYS ∧
    World.spawnFromEntities [.obj humanCandidate] = [] := by
  refine ⟨by decide, by decide, by decide⟩

/-- C6 amended: the entity spawn path has no default capability fallback — a
descriptor whose lowercased type is absent from ENTITY_SPAWNERS is silently
skipped, while a registered type produces exactly clamp(round(quantity),1,8)
placements; only the tag spawn path guarantees a default (unknown tags spawn
the mirage capability). -/
theorem spawn_no_default_fallback :
    (∀ e : Candidate,
      (World.ENTITY_SPAWNER_KEYS.contains (World.spawnEntityType e) = true →
        World.spawnFromEntities [.obj e] =
          List.replicate (World.clampInstructionQuantity e.quantity).toNat
            (World.spawnEntityType e) ∧
        1 ≤ World.clampInstructionQuantity e.quantity ∧
        World.clampInstructionQuantity e.quantity ≤ 8) ∧
      (World.ENTITY_SPAWNER_KEYS.contains (World.spawnEntityType e) = false →
        World.spawnFromEntities [.obj e] = [])) ∧
    (∀ tag : String, tag ∉ World.TAG_SPAWN_CASES →
      World.spawnHandlerKey tag = "mirage") := by
  constructor
  · intro e
    constructor
    · intro hmem
      refine ⟨?_, ?_, ?_⟩
      · show World.spawnEntityPlacements (.obj e) ++ [] = _
        rw [List.append_nil]
        simp only [World.spawnEntityPlacements]
        rw [if_pos hmem]
      · unfold World.clampInstructionQuantity
        cases World.jsToNumber e.quantity with
        | none => norm_num
        | some q => exact le_max_left _ _
      · unfold World.clampInstructionQuantity
        cases World.jsToNumber e.quantity with
        | none => norm_num
        | some q => exact max_le (by norm_num) (min_le_left _ _)
    · intro hmem
      show World.spawnEntityPlacements (.obj e) ++ [] = _
      rw [List.append_nil]
      simp only [World.spawnEntityPlacements]
      rw [if_neg (by simpa using hmem)]
  · intro tag htag
    unfold World.spawnHandlerKey
    rw [if_neg (by simpa using htag)]

/-- Witness for spawn_no_default_fallback on the crystal candidate. -/
theorem spawn_no_default_fallback_witness :
    World.spawnFromEntities [.obj crystalCandidate] =
      List.replicate (World.clampInstructionQuantity crystalCandidate.quantity).toNat
        (World.spawnEntityType crystalCandidate) :=
  ((spawn_no_default_fallback.1 crystalCandidate).1 (by decide)).1

end SpawnTheorems

section FallbackTheorems

/-- The keyword scan couples its two accumulators: while no entity has been
collected, no entity type has been marked found. -/
theorem keywordScan_coupled (lower : String) (rng : ℕ → ℚ) :
    ∀ (ps : List (String × String)) (st : Fallback.ScanState),
      (st.entities = [] → st.found = []) →
      ((ps.foldl (Fallback.scanStep lower rng) st).entities = [] →
        (ps.foldl (Fallback.scanStep lower rng) st).found = []) := by
  intro ps
  induction ps with
  | nil => intro st h; simpa using h
  | cons p rest ih =>
    intro st h
    simp only [List.foldl_cons]
    refine ih _ ?_
    intro he
    unfold Fallback.scanStep at he ⊢
    by_cases hc : (jsIncludes lower p.1 && !st.found.contains p.2) = true
    · rw [if_pos hc] at he
      simp at he
    · rw [if_neg hc] at he ⊢
      exact h he

/-- The random-landscape loop never empties a non-empty entity list. -/
theorem fillLoop_ne_nil (rng : ℕ → ℚ) :
    ∀ (n : ℕ) (st : Fallback.ScanState), st.entities ≠ [] →
      (Fallback.fillLoop rng n st).entities ≠ [] := by
  intro n
  induction n with
  | zero => intro st h; simpa [Fallback.fillLoop] using h
  | succ m ih =>
    intro st h
    unfold Fallback.fillLoop
    by_cases hc : st.found.contains (Fallback.randomTypes.getD
        (⌊rng st.k * 6⌋).toNat "") = true
    · rw [if_pos hc]
      exact ih _ h
    · rw [if_neg hc]
      refine ih _ ?_
      simp

/-- With draws in [0, 1), the palette index is always in range. -/
theorem palette_index_lt (r : ℚ) (_h0 : 0 ≤ r) (h1 : r < 1) :
    (⌊r * 6⌋).toNat < 6 := by
  have hf : ⌊r * 6⌋ < 6 := by
    rw [Int.floor_lt]
    push_cast
    linarith
  omega

/-- Entities pushed by the random-landscape loop always carry palette types. -/
theorem fillLoop_palette (rng : ℕ → ℚ) (h : ∀ n, 0 ≤ rng n ∧ rng n < 1) :
    ∀ (n : ℕ) (st : Fallback.ScanState),
      (∀ e ∈ st.entities, e.type ∈ Fallback.randomTypes) →
      ∀ e ∈ (Fallback.fillLoop rng n st).entities,
        e.type ∈ Fallback.randomTypes := by
  intro n
  induction n with
  | zero => intro st hst; simpa [Fallback.fillLoop] using hst
  | succ m ih =>
    intro st hst
    unfold Fallback.fillLoop
    by_cases hc : st.found.contains (Fallback.randomTypes.getD
        (⌊rng st.k * 6⌋).toNat "") = true
    · rw [if_pos hc]
      exact ih _ hst
    · rw [if_neg hc]
      refine ih _ ?_
      intro e he
      rcases List.mem_append.mp he with hm | hm
      · exact hst e hm
      · rw [List.mem_singleton.mp hm]
        have hlt : (⌊rng st.k * 6⌋).toNat < 6 :=
          palette_index_lt _ (h st.k).1 (h st.k).2
        have hlen : (⌊rng st.k * 6⌋).toNat < Fallback.randomTypes.length := hlt
        have hgd : Fallback.randomTypes.getD (⌊rng st.k * 6⌋).toNat "" =
            Fallback.randomTypes[(⌊rng st.k * 6⌋).toNat] := by
          rw [List.getD_eq_getElem?_getD, List.getElem?_eq_getElem hlen]
          rfl
        rw [hgd]
        exact List.getElem_mem _

/-- Floor of a scaled draw is between 0 and the scale minus one. -/
theorem floor_draw_bounds (r : ℚ) (m : ℕ) (hm : 0 < m) (h0 : 0 ≤ r)
    (h1 : r < 1) : 0 ≤ ⌊r * (m : ℚ)⌋ ∧ ⌊r * (m : ℚ)⌋ ≤ (m : ℤ) - 1 := by
  constructor
  · exact Int.floor_nonneg.mpr (mul_nonneg h0 (by positivity))
  · have hmq : (0 : ℚ) < (m : ℚ) := by exact_mod_cast hm
    have : ⌊r * (m : ℚ)⌋ < (m : ℤ) := by
      rw [Int.floor_lt]
      push_cast
      nlinarith
    omega

/-- C8: the local fallback generator, modelled with random draws in [0, 1),
never fails: for the prompt "un oasis con cristales" it produces exactly one
oasis and one crystal descriptor, each with quantity in [1, 3]; for every
prompt the resulting entity list is non-empty; and when the keyword scan
finds nothing, every synthesized descriptor's type comes from the fixed safe
palette. -/
theorem fallback_generator (rng : ℕ → ℚ) (h : ∀ n, 0 ≤ rng n ∧ rng n < 1) :
    (Fallback.localGenerateFromPrompt "un oasis con cristales" rng).entities =
      [{ type := "oasis", quantity := 1 + ⌊rng 0 * 3⌋ },
       { type := "crystal", quantity := 1 + ⌊rng 1 * 3⌋ }] ∧
    (∀ e ∈ (Fallback.localGenerateFromPrompt "un oasis con cristales"
        rng).entities, 1 ≤ e.quantity ∧ e.quantity ≤ 3) ∧
    (∃ e ∈ (Fallback.localGenerateFromPrompt "un oasis con cristales"
        rng).entities, e.type = "oasis") ∧
    (∃ e ∈ (Fallback.localGenerateFromPrompt "un oasis con cristales"
        rng).entities, e.type = "crystal") ∧
    (∀ prompt : String,
      (Fallback.localGenerateFromPrompt prompt rng).entities ≠ []) ∧
    (∀ prompt : String,
      (Fallback.keywordScan (jsToLower prompt) rng).entities = [] →
      ∀ e ∈ (Fallback.localGenerateFromPrompt prompt rng).entities,
        e.type ∈ Fallback.randomTypes) := by
  have scen :
      (Fallback.localGenerateFromPrompt "un oasis con cristales" rng).entities =
        [{ type := "oasis", quantity := 1 + ⌊rng 0 * 3⌋ },
         { type := "crystal", quantity := 1 + ⌊rng 1 * 3⌋ }] := rfl
  refine ⟨scen, ?_, ?_, ?_, ?_, ?_⟩
  · intro e he
    rw [scen] at he
    have hb0 := floor_draw_bounds (rng 0) 3 (by norm_num) (h 0).1 (h 0).2
    have hb1 := floor_draw_bounds (rng 1) 3 (by norm_num) (h 1).1 (h 1).2
    norm_num at hb0 hb1
    simp only [List.mem_cons, List.not_mem_nil, or_false] at he
    rcases he with rfl | rfl
    · show 1 ≤ 1 + ⌊rng 0 * 3⌋ ∧ 1 + ⌊rng 0 * 3⌋ ≤ 3
      omega
    · show 1 ≤ 1 + ⌊rng 1 * 3⌋ ∧ 1 + ⌊rng 1 * 3⌋ ≤ 3
      omega
  · refine ⟨{ type := "oasis", quantity := 1 + ⌊rng 0 * 3⌋ }, ?_, rfl⟩
    rw [scen]
    simp
  · refine ⟨{ type := "crystal", quantity := 1 + ⌊rng 1 * 3⌋ }, ?_, rfl⟩
    rw [scen]
    simp
  · intro prompt
    simp only [Fallback.localGenerateFromPrompt]
    set st := Fallback.keywordScan (jsToLower prompt) rng with hst
    by_cases hne : st.entities.isEmpty
    · rw [if_pos hne]
      have hents : st.entities = [] := by
        simpa using hne
      have hfound : st.found = [] :=
        keywordScan_coupled (jsToLower prompt) rng _ _ (by simp) hents
      obtain ⟨m, hm⟩ : ∃ m, (2 + ⌊rng st.k * 3⌋).toNat = m + 1 := by
        have hfb := floor_draw_bounds (rng st.k) 3 (by norm_num) (h st.k).1
          (h st.k).2
        norm_num at hfb
        exact ⟨(2 + ⌊rng st.k * 3⌋).toNat - 1, by omega⟩
      rw [hm]
      simp only [Fallback.fillLoop]
      rw [if_neg (by simp [hfound])]
      apply fillLoop_ne_nil
      simp
    · rw [if_neg hne]
      simpa using hne
  · intro prompt hscan
    simp only [Fallback.localGenerateFromPrompt]
    set st := Fallback.keywordScan (jsToLower prompt) rng with hst
    rw [if_pos (by simpa using hscan)]
    refine fillLoop_palette rng h _ _ ?_
    intro e he
    rw [hscan] at he
    simp at he

/-- Witness for fallback_generator at the all-zero random stream. -/
theorem fallback_generator_witness :
    (Fallback.localGenerateFromPrompt "un oasis con cristales"
        (fun _ => 0)).entities =
      [{ type := "oasis", quantity := 1 + ⌊(0 : ℚ) * 3⌋ },
       { type := "crystal", quantity := 1 + ⌊(0 : ℚ) * 3⌋ }] :=
  (fallback_generator (fun _ => 0) (fun _ => by norm_num)).1

end FallbackTheorems

section StringLemmas

/-- A successful character lookup returns one of the table values. -/
theorem charLookup_mem_values :
    ∀ (L : List (Char × Char)) (c v : Char),
      charLookup L c = some v → v ∈ L.map Prod.snd := by
  intro L
  induction L with
  | nil => intro c v h; simp [charLookup] at h
  | cons p ps ih =>
    intro c v h
    simp only [charLookup] at h
    by_cases hc : p.1 = c
    · rw [if_pos hc] at h
      obtain rfl := Option.some.inj h
      simp
    · rw [if_neg hc] at h
      simp only [List.map_cons, List.mem_cons]
      exact Or.inr (ih c v h)

/-- A successful character lookup means the key is one of the table keys. -/
theorem charLookup_mem_keys :
    ∀ (L : List (Char × Char)) (c v : Char),
      charLookup L c = some v → c ∈ L.map Prod.fst := by
  intro L
  induction L with
  | nil => intro c v h; simp [charLookup] at h
  | cons p ps ih =>
    intro c v h
    simp only [charLookup] at h
    by_cases hc : p.1 = c
    · rw [← hc]
      simp
    · rw [if_neg hc] at h
      simp only [List.map_cons, List.mem_cons]
      exact Or.inr (ih c v h)

/-- Lowercase letters are fixed points of the case map. -/
theorem lowerValues_fixed :
    ∀ v ∈ lowerPairs.map Prod.snd, jsCharLower v = v := by decide

/-- Lowercase letters are not whitespace. -/
theorem lowerValues_not_ws :
    ∀ v ∈ lowerPairs.map Prod.snd, jsWs v = false := by decide

/-- Uppercase letters are not whitespace. -/
theorem lowerKeys_not_ws :
    ∀ k ∈ lowerPairs.map Prod.fst, jsWs k = false := by decide

/-- Lowercasing a character twice equals lowercasing it once. -/
theorem jsCharLower_idem (c : Char) :
    jsCharLower (jsCharLower c) = jsCharLower c := by
  cases hc : charLookup lowerPairs c with
  | none =>
    have h1 : jsCharLower c = c := by simp [jsCharLower, hc]
    rw [h1]
    exact h1
  | some v =>
    have h1 : jsCharLower c = v := by simp [jsCharLower, hc]
    rw [h1]
    exact lowerValues_fixed v (charLookup_mem_values _ _ _ hc)

/-- Lowercasing preserves whether a character is whitespace. -/
theorem jsWs_jsCharLower (c : Char) : jsWs (jsCharLower c) = jsWs c := by
  cases hc : charLookup lowerPairs c with
  | none =>
    have h1 : jsCharLower c = c := by simp [jsCharLower, hc]
    rw [h1]
  | some v =>
    have h1 : jsCharLower c = v := by simp [jsCharLower, hc]
    rw [h1]
    rw [lowerValues_not_ws v (charLookup_mem_values _ _ _ hc),
      lowerKeys_not_ws c (charLookup_mem_keys _ _ _ hc)]

/-- Dropping a prefix twice equals dropping it once. -/
theorem dropWhile_idem {α : Type} (p : α → Bool) (l : List α) :
    (l.dropWhile p).dropWhile p = l.dropWhile p := by
  induction l with
  | nil => rfl
  | cons a t ih =>
    by_cases hp : p a = true
    · simp only [List.dropWhile_cons, hp, if_true]
      exact ih
    · simp [List.dropWhile_cons, hp]

/-- Unfolding of charTrimR on a cons cell with both condition cases. -/
theorem charTrimR_cons_of_not_ws {c : Char} (t : List Char)
    (h : jsWs c = false) : charTrimR (c :: t) = c :: charTrimR t := by
  simp [charTrimR, h]

/-- Right-trimming twice equals right-trimming once. -/
theorem charTrimR_idem (l : List Char) :
    charTrimR (charTrimR l) = charTrimR l := by
  induction l with
  | nil => rfl
  | cons c t ih =>
    by_cases h1 : charTrimR t = [] <;> by_cases h2 : jsWs c = true <;>
      simp [charTrimR, ih, h1, h2]

/-- The head surviving a dropWhile fails the predicate. -/
theorem dropWhile_head_false {α : Type} (p : α → Bool) :
    ∀ (l : List α) {c : α} {t : List α},
      l.dropWhile p = c :: t → p c = false := by
  intro l
  induction l with
  | nil => intro c t h; simp at h
  | cons a l ih =>
    intro c t h
    by_cases hp : p a = true
    · rw [List.dropWhile_cons, if_pos hp] at h
      exact ih h
    · rw [List.dropWhile_cons, if_neg hp] at h
      obtain rfl := ((List.cons.injEq _ _ _ _).mp h).1
      simpa using hp

/-- Dropping a prefix never lengthens a list. -/
theorem dropWhile_length_le {α : Type} (p : α → Bool) (l : List α) :
    (l.dropWhile p).length ≤ l.length := by
  induction l with
  | nil => simp
  | cons a t ih =>
    by_cases hp : p a = true
    · rw [List.dropWhile_cons, if_pos hp]
      exact le_trans ih (by simp)
    · rw [List.dropWhile_cons, if_neg hp]

/-- Right-trimming preserves a left-trim fixed point. -/
theorem dropWhile_charTrimR_fix {l : List Char}
    (h : l.dropWhile jsWs = l) :
    (charTrimR l).dropWhile jsWs = charTrimR l := by
  cases l with
  | nil => rfl
  | cons c t =>
    have hc : jsWs c = false := dropWhile_head_false jsWs _ h
    rw [charTrimR_cons_of_not_ws t hc]
    rw [List.dropWhile_cons, if_neg (by simp [hc])]

/-- Trimming twice equals trimming once. -/
theorem jsTrim_idem (s : String) : jsTrim (jsTrim s) = jsTrim s := by
  show (⟨charTrimR ((charTrimR (s.data.dropWhile jsWs)).dropWhile jsWs)⟩ :
    String) = ⟨charTrimR (s.data.dropWhile jsWs)⟩
  rw [dropWhile_charTrimR_fix (dropWhile_idem _ _), charTrimR_idem]

/-- Right-trimming never lengthens a list. -/
theorem charTrimR_length_le (l : List Char) :
    (charTrimR l).length ≤ l.length := by
  induction l with
  | nil => simp [charTrimR]
  | cons c t ih =>
    by_cases h1 : charTrimR t = [] <;> by_cases h2 : jsWs c = true <;>
      simp [charTrimR, h1, h2] <;> omega

/-- Trimming never lengthens a string. -/
theorem jsTrim_length_le (s : String) :
    (jsTrim s).data.length ≤ s.data.length := by
  calc (jsTrim s).data.length = (charTrimR (s.data.dropWhile jsWs)).length := rfl
    _ ≤ (s.data.dropWhile jsWs).length := charTrimR_length_le _
    _ ≤ s.data.length := dropWhile_length_le jsWs s.data

/-- Lowercasing twice equals lowercasing once. -/
theorem jsToLower_idem (s : String) : jsToLower (jsToLower s) = jsToLower s := by
  show (⟨(s.data.map jsCharLower).map jsCharLower⟩ : String) =
    ⟨s.data.map jsCharLower⟩
  rw [List.map_map]
  congr 1
  exact List.map_congr_left fun c _ => jsCharLower_idem c

/-- Lowercasing commutes with dropping whitespace. -/
theorem dropWhile_map_lower (l : List Char) :
    (l.map jsCharLower).dropWhile jsWs =
      (l.dropWhile jsWs).map jsCharLower := by
  induction l with
  | nil => rfl
  | cons c t ih =>
    simp only [List.map_cons, List.dropWhile_cons, jsWs_jsCharLower]
    by_cases hc : jsWs c = true
    · rw [if_pos hc, if_pos hc]
      exact ih
    · rw [if_neg hc, if_neg hc]
      rfl

/-- Lowercasing commutes with right-trimming. -/
theorem charTrimR_map_lower (l : List Char) :
    charTrimR (l.map jsCharLower) = (charTrimR l).map jsCharLower := by
  induction l with
  | nil => rfl
  | cons c t ih =>
    have hnil : ((charTrimR t).map jsCharLower = []) ↔ (charTrimR t = []) := by
      simp
    by_cases h1 : charTrimR t = [] <;> by_cases h2 : jsWs c = true <;>
      simp [charTrimR, ih, hnil, jsWs_jsCharLower, h1, h2]

/-- Lowercasing commutes with trimming. -/
theorem jsTrim_toLower_comm (s : String) :
    jsToLower (jsTrim s) = jsTrim (jsToLower s) := by
  show (⟨(charTrimR (s.data.dropWhile jsWs)).map jsCharLower⟩ : String) =
    ⟨charTrimR ((s.data.map jsCharLower).dropWhile jsWs)⟩
  rw [dropWhile_map_lower, charTrimR_map_lower]

/-- The canonical form trim(lower(s)) is a fixed point of trim(lower(-)). -/
theorem trimLower_fix (s : String) :
    jsTrim (jsToLower (jsTrim (jsToLower s))) = jsTrim (jsToLower s) := by
  rw [jsTrim_toLower_comm (jsToLower s), jsToLower_idem, jsTrim_idem]

/-- The size form lower(trim(s)) is fixed by trim and by lower. -/
theorem lowerTrim_fix (s : String) :
    jsTrim (jsToLower (jsTrim s)) = jsToLower (jsTrim s) ∧
    jsToLower (jsToLower (jsTrim s)) = jsToLower (jsTrim s) := by
  constructor
  · rw [jsTrim_toLower_comm s, jsTrim_idem]
  · exact jsToLower_idem _

end StringLemmas

section RoundtripLemmas

/-- A string equals the empty string exactly when its character list is nil. -/
theorem string_eq_empty_iff (s : String) : s = "" ↔ s.data = [] := by
  constructor
  · intro h
    have := congrArg String.data h
    simpa using this
  · intro h
    cases s with
    | mk d =>
      simp only at h
      rw [h]

/-- Lowercasing maps only the empty string to the empty string. -/
theorem jsToLower_eq_empty_iff (s : String) :
    jsToLower s = "" ↔ s = "" := by
  rw [string_eq_empty_iff, string_eq_empty_iff]
  show s.data.map jsCharLower = [] ↔ _
  simp

/-- A non-nil right-trim preserves the head of the list. -/
theorem charTrimR_head :
    ∀ {l : List Char} {c : Char} {t : List Char},
      charTrimR l = c :: t → ∃ r, l = c :: r := by
  intro l c t h
  cases l with
  | nil => simp [charTrimR] at h
  | cons a x =>
    by_cases h1 : charTrimR x = [] <;> by_cases h2 : jsWs a = true <;>
      simp [charTrimR, h1, h2] at h <;>
      exact ⟨x, by rw [h.1]⟩

/-- A non-empty trimmed string starts with a non-whitespace character. -/
theorem jsTrim_head_not_ws {s : String} (h : jsTrim s ≠ "") :
    ∃ c t, (jsTrim s).data = c :: t ∧ jsWs c = false := by
  have hd : (jsTrim s).data = charTrimR (s.data.dropWhile jsWs) := rfl
  obtain ⟨c, t, hct⟩ : ∃ c t, (jsTrim s).data = c :: t := by
    cases hl : (jsTrim s).data with
    | nil => exact absurd ((string_eq_empty_iff _).mpr hl) h
    | cons c t => exact ⟨c, t, rfl⟩
  obtain ⟨r, hr⟩ := charTrimR_head (hd.symm.trans hct)
  exact ⟨c, t, hct, dropWhile_head_false jsWs _ hr⟩

/-- Clamping is the identity inside the clamp interval. -/
theorem clampNumber_fixed {q lo hi : ℚ} (h1 : lo ≤ q) (h2 : q ≤ hi) :
    clampNumber q lo hi = q := by
  unfold clampNumber
  rw [min_eq_right h2, max_eq_right h1]

/-- Renormalizing a capped string field re-trims it and nothing more. -/
theorem normCapped_roundtrip {cap : ℕ} (hcap : 0 < cap) {v : JVal}
    {s : String} (h : Client.normCapped cap v = some s) :
    Client.normCapped cap (.str s) = some (jsTrim s) := by
  obtain ⟨m, rfl⟩ : ∃ m, cap = m + 1 := ⟨cap - 1, by omega⟩
  cases v with
  | str s0 =>
    simp only [Client.normCapped] at h
    by_cases h0 : jsTrim s0 = ""
    · rw [if_pos h0] at h
      exact absurd h (by simp)
    · rw [if_neg h0] at h
      obtain rfl := Option.some.inj h
      obtain ⟨c, t, hdata, hcws⟩ := jsTrim_head_not_ws h0
      have hsdata : (jsTake (m + 1) (jsTrim s0)).data = c :: t.take m := by
        show ((jsTrim s0).data.take (m + 1)) = _
        rw [hdata, List.take_succ_cons]
      have hinner : (jsTrim (jsTake (m + 1) (jsTrim s0))).data =
          c :: charTrimR (t.take m) := by
        show charTrimR ((jsTake (m + 1) (jsTrim s0)).data.dropWhile jsWs) = _
        rw [hsdata, List.dropWhile_cons, if_neg (by simp [hcws]),
          charTrimR_cons_of_not_ws _ hcws]
      have hne2 : jsTrim (jsTake (m + 1) (jsTrim s0)) ≠ "" := by
        rw [Ne, string_eq_empty_iff, hinner]
        simp
      have hlen : (jsTrim (jsTake (m + 1) (jsTrim s0))).data.length ≤ m + 1 := by
        rw [hinner]
        have h1 : (charTrimR (t.take m)).length ≤ m := by
          refine le_trans (charTrimR_length_le _) ?_
          simp [List.length_take]
        simp only [List.length_cons]
        omega
      have htake : jsTake (m + 1) (jsTrim (jsTake (m + 1) (jsTrim s0))) =
          jsTrim (jsTake (m + 1) (jsTrim s0)) := by
        show String.mk ((jsTrim (jsTake (m + 1) (jsTrim s0))).data.take (m + 1))
          = _
        rw [List.take_of_length_le hlen]
      simp only [Client.normCapped]
      rw [if_neg hne2, htake]
  | undefined => simp [Client.normCapped] at h
  | null => simp [Client.normCapped] at h
  | jbool b => simp [Client.normCapped] at h
  | num q => simp [Client.normCapped] at h
  | nan => simp [Client.normCapped] at h

/-- Renormalizing a normalized size field is the identity. -/
theorem normSize_roundtrip {v : JVal} {s : String}
    (h : Client.normSize v = some s) : Client.normSize (.str s) = some s := by
  cases v with
  | str s0 =>
    simp only [Client.normSize] at h
    by_cases h0 : jsTrim s0 = ""
    · rw [if_pos h0] at h
      exact absurd h (by simp)
    · rw [if_neg h0] at h
      obtain rfl := Option.some.inj h
      obtain ⟨hfix1, hfix2⟩ := lowerTrim_fix s0
      have hne : jsToLower (jsTrim s0) ≠ "" := by
        rw [Ne, jsToLower_eq_empty_iff]
        exact h0
      simp only [Client.normSize]
      rw [hfix1, if_neg hne, hfix2]
  | undefined => simp [Client.normSize] at h
  | null => simp [Client.normSize] at h
  | jbool b => simp [Client.normSize] at h
  | num q => simp [Client.normSize] at h
  | nan => simp [Client.normSize] at h

/-- Renormalizing a normalized scale field is the identity. -/
theorem normScale_roundtrip {v : JVal} {q : ℚ}
    (h : Client.normScale v = some q) : Client.normScale (.num q) = some q := by
  cases v with
  | num q0 =>
    simp only [Client.normScale] at h
    obtain rfl := Option.some.inj h
    simp only [Client.normScale]
    refine congrArg some ?_
    have hb := clampNumber_bounds q0 (show (3 : ℚ) / 10 ≤ 4 by norm_num)
    exact clampNumber_fixed hb.1 hb.2
  | undefined => simp [Client.normScale] at h
  | null => simp [Client.normScale] at h
  | jbool b => simp [Client.normScale] at h
  | str s => simp [Client.normScale] at h
  | nan => simp [Client.normScale] at h

/-- Renormalizing a normalized quantity is the identity. -/
theorem normQuantity_roundtrip (a b : JVal) :
    Client.normQuantity (.num (Client.normQuantity a b)) .undefined =
      Client.normQuantity a b := by
  have hb : 1 ≤ Client.normQuantity a b ∧ Client.normQuantity a b ≤ 8 :=
    clampNumber_bounds _ (by norm_num)
  have hne : Client.normQuantity a b ≠ 0 := by
    intro h0
    rw [h0] at hb
    linarith [hb.1]
  show clampNumber
    (jsOrNum (toFiniteNumber (.num (Client.normQuantity a b)) (some 1)) 1) 1 8
    = Client.normQuantity a b
  show clampNumber (jsOrNum (some (Client.normQuantity a b)) 1) 1 8 = _
  simp only [jsOrNum, hne, if_false, if_neg hne]
  exact clampNumber_fixed hb.1 hb.2

/-- A successful string lookup returns one of the table values. -/
theorem strLookup_mem_values :
    ∀ (L : List (String × String)) (s v : String),
      strLookup L s = some v → v ∈ L.map Prod.snd := by
  intro L
  induction L with
  | nil => intro s v h; simp [strLookup] at h
  | cons p ps ih =>
    intro s v h
    simp only [strLookup] at h
    by_cases hc : p.1 = s
    · rw [if_pos hc] at h
      obtain rfl := Option.some.inj h
      simp
    · rw [if_neg hc] at h
      simp only [List.map_cons, List.mem_cons]
      exact Or.inr (ih s v h)

/-- Every alias-table value is a non-empty canonical form fixed by trimming,
lowercasing and alias resolution. -/
theorem aliasValues_fixed :
    ∀ v ∈ Client.ENTITY_TYPE_ALIASES.map Prod.snd,
      jsTrim (jsToLower v) = v ∧ Client.aliasResolve v = v ∧ v ≠ "" := by
  decide

/-- Alias resolution of a trimmed-lowercased non-empty string yields a
non-empty fixed point of both canonicalization and alias resolution. -/
theorem aliasResolve_fix (t : String) (hP : jsTrim (jsToLower t) = t)
    (hne : t ≠ "") :
    jsTrim (jsToLower (Client.aliasResolve t)) = Client.aliasResolve t ∧
    Client.aliasResolve (Client.aliasResolve t) = Client.aliasResolve t ∧
    Client.aliasResolve t ≠ "" := by
  cases hl : strLookup Client.ENTITY_TYPE_ALIASES t with
  | none =>
    have h1 : Client.aliasResolve t = t := by simp [Client.aliasResolve, hl]
    rw [h1]
    exact ⟨hP, h1, hne⟩
  | some v =>
    have h1 : Client.aliasResolve t = v := by simp [Client.aliasResolve, hl]
    rw [h1]
    exact aliasValues_fixed v (strLookup_mem_values _ _ _ hl)

end RoundtripLemmas

section IdempotenceTheorems

/-- Renormalizing one normalized descriptor succeeds and re-trims exactly
the capped string fields (color, trunkColor, foliageColor, detail). -/
theorem normEntity_renorm {e : Candidate} {d : Descriptor}
    (h : Client.normEntity (.obj e) = some d) :
    Client.normEntity (.obj (Client.descToCandidate d)) =
      some (Client.retrimCaps d) := by
  simp only [Client.normEntity] at h
  by_cases ht : Client.entityType e = ""
  · rw [if_pos ht] at h
    exact absurd h (by simp)
  · rw [if_neg ht] at h
    have hinj := Option.some.inj h
    have hty : d.type = Client.aliasResolve (Client.entityType e) := by
      rw [← hinj]
    have hqu : d.quantity = Client.normQuantity e.quantity e.count := by
      rw [← hinj]
    have hsize : d.size = Client.normSize e.size := by rw [← hinj]
    have hscale : d.scale = Client.normScale e.scale := by rw [← hinj]
    have hcolor : d.color = Client.normCapped 32 e.color := by rw [← hinj]
    have htrunk : d.trunkColor = Client.normCapped 32 e.trunkColor := by
      rw [← hinj]
    have hfoliage : d.foliageColor = Client.normCapped 32 e.foliageColor := by
      rw [← hinj]
    have hdetail : d.detail = Client.normCapped 160 e.detail := by rw [← hinj]
    have hfloors : d.floors = toFiniteNumber e.floors none := by rw [← hinj]
    have hheight : d.height = toFiniteNumber e.height none := by rw [← hinj]
    have hwidth : d.width = toFiniteNumber e.width none := by rw [← hinj]
    have hdepth : d.depth = toFiniteNumber e.depth none := by rw [← hinj]
    have hradius : d.radius = toFiniteNumber e.radius none := by rw [← hinj]
    have hlength : d.length = toFiniteNumber e.length none := by rw [← hinj]
    have hspread : d.spread = toFiniteNumber e.spread none := by rw [← hinj]
    have hthick : d.thickness = none := by rw [← hinj]
    have hP : jsTrim (jsToLower (Client.entityType e)) =
        Client.entityType e := by
      unfold Client.entityType
      cases jjNN e.type (jjNN e.entity e.kind) with
      | str s => exact trimLower_fix s
      | undefined => rfl
      | null => rfl
      | jbool b => rfl
      | num q => rfl
      | nan => rfl
    obtain ⟨hA1, hA2, hA3⟩ := aliasResolve_fix _ hP ht
    have hET : Client.entityType (Client.descToCandidate d) =
        jsTrim (jsToLower d.type) := rfl
    rw [hty, hA1] at hET
    simp only [Client.normEntity]
    rw [hET, if_neg hA3]
    refine congrArg some ?_
    have hq1 : (Client.descToCandidate d).quantity = JVal.num d.quantity := rfl
    have hq2 : (Client.descToCandidate d).count = JVal.undefined := rfl
    have hs1 : (Client.descToCandidate d).size =
      (match d.size with | some s => JVal.str s | none => JVal.undefined) := rfl
    have hs2 : (Client.descToCandidate d).scale =
      (match d.scale with | some q => JVal.num q | none => JVal.undefined) := rfl
    have hs3 : (Client.descToCandidate d).color =
      (match d.color with | some s => JVal.str s | none => JVal.undefined) := rfl
    have hs4 : (Client.descToCandidate d).trunkColor =
      (match d.trunkColor with | some s => JVal.str s | none => JVal.undefined) :=
      rfl
    have hs5 : (Client.descToCandidate d).foliageColor =
      (match d.foliageColor with
        | some s => JVal.str s | none => JVal.undefined) := rfl
    have hs6 : (Client.descToCandidate d).detail =
      (match d.detail with | some s => JVal.str s | none => JVal.undefined) := rfl
    have hn1 : (Client.descToCandidate d).floors =
      (match d.floors with | some q => JVal.num q | none => JVal.undefined) := rfl
    have hn2 : (Client.descToCandidate d).height =
      (match d.height with | some q => JVal.num q | none => JVal.undefined) := rfl
    have hn3 : (Client.descToCandidate d).width =
      (match d.width with | some q => JVal.num q | none => JVal.undefined) := rfl
    have hn4 : (Client.descToCandidate d).depth =
      (match d.depth with | some q => JVal.num q | none => JVal.undefined) := rfl
    have hn5 : (Client.descToCandidate d).radius =
      (match d.radius with | some q => JVal.num q | none => JVal.undefined) := rfl
    have hn6 : (Client.descToCandidate d).length =
      (match d.length with | some q => JVal.num q | none => JVal.undefined) := rfl
    have hn7 : (Client.descToCandidate d).spread =
      (match d.spread with | some q => JVal.num q | none => JVal.undefined) := rfl
    rw [hq1, hq2, hs1, hs2, hs3, hs4, hs5, hs6, hn1, hn2, hn3, hn4, hn5, hn6,
      hn7]
    simp only [Client.retrimCaps, Descriptor.mk.injEq]
    refine ⟨?_, ?_, ?_, ?_, ?_, ?_, ?_, ?_, ?_, ?_, ?_, ?_, ?_, ?_, ?_, ?_⟩
    · rw [hty]
      exact hA2
    · rw [hqu]
      exact normQuantity_roundtrip e.quantity e.count
    · rw [hsize]
      cases hs : Client.normSize e.size with
      | none => rfl
      | some s => exact normSize_roundtrip hs
    · rw [hscale]
      cases hs : Client.normScale e.scale with
      | none => rfl
      | some q => exact normScale_roundtrip hs
    · rw [hcolor]
      cases hc : Client.normCapped 32 e.color with
      | none => rfl
      | some s =>
        rw [normCapped_roundtrip (by norm_num) hc]
        rfl
    · rw [htrunk]
      cases hc : Client.normCapped 32 e.trunkColor with
      | none => rfl
      | some s =>
        rw [normCapped_roundtrip (by norm_num) hc]
        rfl
    · rw [hfoliage]
      cases hc : Client.normCapped 32 e.foliageColor with
      | none => rfl
      | some s =>
        rw [normCapped_roundtrip (by norm_num) hc]
        rfl
    · rw [hdetail]
      cases hc : Client.normCapped 160 e.detail with
      | none => rfl
      | some s =>
        rw [normCapped_roundtrip (by norm_num) hc]
        rfl
    · rw [hfloors]
      cases hn : toFiniteNumber e.floors none with
      | none => rfl
      | some q => rfl
    · rw [hheight]
      cases hn : toFiniteNumber e.height none with
      | none => rfl
      | some q => rfl
    · rw [hwidth]
      cases hn : toFiniteNumber e.width none with
      | none => rfl
      | some q => rfl
    · rw [hdepth]
      cases hn : toFiniteNumber e.depth none with
      | none => rfl
      | some q => rfl
    · rw [hradius]
      cases hn : toFiniteNumber e.radius none with
      | none => rfl
      | some q => rfl
    · rw [hlength]
      cases hn : toFiniteNumber e.length none with
      | none => rfl
      | some q => rfl
    · rw [hspread]
      cases hn : toFiniteNumber e.spread none with
      | none => rfl
      | some q => rfl
    · rw [hthick]

/-- Set-insertion keeps the accumulator duplicate-free. -/
theorem addTag_nodup {acc : List String} {t : String} (h : acc.Nodup) :
    (addTag acc t).Nodup := by
  unfold addTag
  split_ifs with hc
  · exact h
  · have hna : t ∉ acc := by simpa using hc
    simp [List.nodup_append, h, hna]

/-- Every tag-normalization step either keeps the accumulator or inserts one
tag into it. -/
theorem tagStep_shape (acc : List String) (v : JVal) :
    Client.normalizeTagStep acc v = acc ∨
    ∃ t, Client.normalizeTagStep acc v = addTag acc t := by
  simp only [Client.normalizeTagStep]
  by_cases h1 : v.falsy = true
  · rw [if_pos h1]
    exact Or.inl rfl
  · rw [if_neg h1]
    by_cases h2 : Client.KNOWN_TAGS.contains
        (jsTrim (jsToLower (jvalToString v))) = true
    · rw [if_pos h2]
      exact Or.inr ⟨_, rfl⟩
    · rw [if_neg h2]
      unfold Client.tagHeuristic
      cases hf : heuristicFind Client.TAG_HEURISTICS
          (jsTrim (jsToLower (jvalToString v))) with
      | none => exact Or.inl rfl
      | some t => exact Or.inr ⟨t, rfl⟩

/-- Tag normalization returns a duplicate-free list (it models a Set). -/
theorem normalizeTags_nodup (l : List JVal) :
    (Client.normalizeTags l).Nodup := by
  suffices h : ∀ (l : List JVal) (acc : List String), acc.Nodup →
      (l.foldl Client.normalizeTagStep acc).Nodup by
    exact h l [] (by simp)
  intro l
  induction l with
  | nil => intro acc h; simpa using h
  | cons v vs ih =>
    intro acc h
    simp only [List.foldl_cons]
    refine ih _ ?_
    rcases tagStep_shape acc v with hs | ⟨t, hs⟩
    · rw [hs]
      exact h
    · rw [hs]
      exact addTag_nodup h

/-- Every vocabulary member is truthy, already canonical and contained in the
vocabulary. -/
theorem knownTagFacts : ∀ t ∈ Client.KNOWN_TAGS,
    (JVal.str t).falsy = false ∧
    jsTrim (jsToLower (jvalToString (.str t))) = t ∧
    Client.KNOWN_TAGS.contains t = true := by decide

/-- Feeding a vocabulary member back into the step re-inserts exactly it. -/
theorem tagStep_known {acc : List String} {t : String}
    (ht : t ∈ Client.KNOWN_TAGS) :
    Client.normalizeTagStep acc (.str t) = addTag acc t := by
  obtain ⟨h1, h2, h3⟩ := knownTagFacts t ht
  simp only [Client.normalizeTagStep]
  rw [if_neg (by simp [h1]), h2, if_pos h3]

/-- Folding the step over distinct fresh vocabulary members appends them. -/
theorem foldl_known_append :
    ∀ (ts acc : List String), ts.Nodup →
      (∀ t ∈ ts, t ∈ Client.KNOWN_TAGS) → (∀ t ∈ ts, t ∉ acc) →
      (ts.map JVal.str).foldl Client.normalizeTagStep acc = acc ++ ts := by
  intro ts
  induction ts with
  | nil => intro acc _ _ _; simp
  | cons t ts ih =>
    intro acc hnd hkn hdis
    obtain ⟨hhead, htail⟩ := List.nodup_cons.mp hnd
    simp only [List.map_cons, List.foldl_cons]
    rw [tagStep_known (hkn t (by simp))]
    have hadd : addTag acc t = acc ++ [t] := by
      unfold addTag
      rw [if_neg (by simpa using hdis t (by simp))]
    rw [hadd]
    rw [ih (acc ++ [t]) htail (fun x hx => hkn x (by simp [hx])) ?_]
    · simp
    · intro x hx
      simp only [List.mem_append, List.mem_singleton]
      push_neg
      refine ⟨hdis x (by simp [hx]), ?_⟩
      intro hxt
      rw [hxt] at hx
      exact hhead hx

/-- Tag normalization is idempotent: renormalizing its own output (fed back
as string tokens) reproduces it exactly. -/
theorem normalizeTags_idem (l : List JVal) :
    Client.normalizeTags ((Client.normalizeTags l).map JVal.str) =
      Client.normalizeTags l := by
  have hsub : ∀ t ∈ Client.normalizeTags l, t ∈ Client.KNOWN_TAGS :=
    fun t ht => foldl_tags_subset normalizeTagStep_subset l [] (by simp) t ht
  have happ := foldl_known_append (Client.normalizeTags l) []
    (normalizeTags_nodup l) hsub (by simp)
  simpa [Client.normalizeTags] using happ

/-- filterMap over a reinjected list whose every element maps to some. -/
theorem filterMap_map_all_some {α β : Type} {f : α → Option β} {g : β → α}
    {h : β → β} :
    ∀ (out : List β), (∀ d ∈ out, f (g d) = some (h d)) →
      (out.map g).filterMap f = out.map h := by
  intro out
  induction out with
  | nil => intro; rfl
  | cons d ds ih =>
    intro hall
    simp only [List.map_cons, List.filterMap_cons, hall d (by simp)]
    rw [ih fun x hx => hall x (by simp [hx])]

/-- Mapping a pointwise-identity function is the identity. -/
theorem map_fixed_id {β : Type} {h : β → β} :
    ∀ (out : List β), (∀ d ∈ out, h d = d) → out.map h = out := by
  intro out
  induction out with
  | nil => intro; rfl
  | cons d ds ih =>
    intro hall
    simp only [List.map_cons]
    rw [hall d (by simp), ih fun x hx => hall x (by simp [hx])]

/-- Candidate whose normalized color field is changed by a second pass: the
32-character cap exposes trailing whitespace that a renormalization trims. -/
def spacedColorCandidate : JItem :=
  .obj { type := .str "rock",
         color := .str ("a" ++ String.mk (List.replicate 31 ' ') ++ "b") }

/-- C9 counterexample: entity normalization is not idempotent — a color whose
trimmed value is 33 characters long with 31 inner spaces is capped to a
32-character string ending in whitespace, and a second normalization pass
trims it again, yielding a different descriptor list. -/
theorem normalization_idempotence_cex :
    Client.normalizeEntities
        ((Client.normalizeEntities [spacedColorCandidate]).map
          (fun d => JItem.obj (Client.descToCandidate d))) ≠
      Client.normalizeEntities [spacedColorCandidate] := by decide

/-- C9 amended: tag normalization is idempotent; entity renormalization
reproduces every field except the length-capped string fields (color,
trunkColor, foliageColor, detail), which are re-trimmed on the second pass —
in particular renormalization is the identity exactly on outputs whose
capped string fields are trim-fixed. -/
theorem normalization_idempotence :
    (∀ l : List JVal,
      Client.normalizeTags ((Client.normalizeTags l).map JVal.str) =
        Client.normalizeTags l) ∧
    (∀ l : List JItem,
      Client.normalizeEntities ((Client.normalizeEntities l).map
          (fun d => JItem.obj (Client.descToCandidate d))) =
        (Client.normalizeEntities l).map Client.retrimCaps) ∧
    (∀ l : List JItem,
      (∀ d ∈ Client.normalizeEntities l, Client.retrimCaps d = d) →
      Client.normalizeEntities ((Client.normalizeEntities l).map
          (fun d => JItem.obj (Client.descToCandidate d))) =
        Client.normalizeEntities l) := by
  have hmain : ∀ l : List JItem,
      Client.normalizeEntities ((Client.normalizeEntities l).map
          (fun d => JItem.obj (Client.descToCandidate d))) =
        (Client.normalizeEntities l).map Client.retrimCaps := by
    intro l
    refine filterMap_map_all_some (Client.normalizeEntities l) ?_
    intro d hd
    rcases mem_normalizeEntities hd with ⟨e, he⟩
    exact normEntity_renorm he
  refine ⟨normalizeTags_idem, hmain, ?_⟩
  intro l hfix
  rw [hmain l]
  exact map_fixed_id _ hfix

/-- Witness for normalization_idempotence on a trim-fixed output. -/
theorem normalization_idempotence_witness :
    Client.normalizeEntities ((Client.normalizeEntities [bananaCandidate]).map
        (fun d => JItem.obj (Client.descToCandidate d))) =
      Client.normalizeEntities [bananaCandidate] :=
  normalization_idempotence.2.2 [bananaCandidate] (by decide)

end IdempotenceTheorems

end Universodu
